import Mathlib

/-!
# WebBot (webscraper.mjs): a shallow embedding and its verified properties

The single source file `src/webscraper.mjs` defines the class `WebBot`.  Its methods are
embedded here as pure functions.  Everything that the program obtains from outside
(DNS, the network behind `axios.get`, the clock, the file system callbacks, the `URL`
constructor, `valid-url`, `cheerio`) is a field of the environment record `Env`, so that
every theorem quantifies over all behaviours of the outside world.  Observable actions are
recorded as a list of `Effect`s.

JavaScript strings are modelled by Lean strings; the text scanned by the regular
expression is handled as its list of characters.  The value `response.data` is a
JavaScript value (`Json`): axios hands over the value parsed from a JSON body and the body
text otherwise.
-/

namespace WebBot

/-! ## The regular expression `/\/database\//gi` of `extractDatabaseEndpoints` -/

/-- Characters of the regular expression literal on line 167 (the escaped slashes are
plain `/` characters). -/
def regexSource : List Char := ['/', 'd', 'a', 't', 'a', 'b', 'a', 's', 'e', '/']

/-- Case folding used by a regular expression with the `i` flag and no `u` flag: a
character is compared through its upper-case form; a non-ASCII character never folds to
an ASCII one, so against the ASCII pattern only the ASCII letters fold. -/
def canonicalize (c : Char) : Char := c.toUpper

/-- Try to match the pattern characters `pat` at the head of `input`; on success return the
matched text (the input characters, with their own casing). -/
def matchHere : List Char → List Char → Option (List Char)
  | [], _ => some []
  | _ :: _, [] => none
  | p :: ps, c :: cs =>
    if canonicalize p = canonicalize c then
      (matchHere ps cs).map (fun m => c :: m)
    else none

/-- The search of `regex.exec` over the text `rest` that starts at index `idx` of the whole
input: the leftmost position at or after `idx` where the pattern matches.  Returns the
matched text (`match[0]`) and the new `lastIndex` (the end of the match). -/
def execFrom : List Char → Nat → Option (List Char × Nat)
  | [], idx => (matchHere regexSource []).map (fun m => (m, idx + m.length))
  | c :: cs, idx =>
    match matchHere regexSource (c :: cs) with
    | some m => some (m, idx + m.length)
    | none => execFrom cs (idx + 1)

/-- One call `regex.exec(htmlContent)` of a global regular expression whose `lastIndex` is
`lastIndex`: `none` stands for the `null` result. -/
def regexExec (input : List Char) (lastIndex : Nat) : Option (List Char × Nat) :=
  if input.length < lastIndex then none else execFrom (input.drop lastIndex) lastIndex

/-- The loop `while ((match = regex.exec(htmlContent)) !== null) push(match[0])` of lines
169-171, with an explicit bound on the number of iterations: `none` means that the bound
was reached before `exec` returned `null`. -/
def scanLoop (input : List Char) : Nat → Nat → List String → Option (List String)
  | 0, _, _ => none
  | fuel + 1, lastIndex, potentialEndpoints =>
    match regexExec input lastIndex with
    | none => some potentialEndpoints
    | some (m, lastIndex') => scanLoop input fuel lastIndex' (potentialEndpoints ++ [String.mk m])

/-- Method `extractDatabaseEndpoints` (lines 161-174) on the text that `regex.exec` scans,
the string conversion of its argument.  The regular expression object is created by the
call, so its `lastIndex` starts at 0.  The iteration bound `length + 1` is always
sufficient (theorem `scanLoop_enough_fuel`). -/
def extractDatabaseEndpoints (htmlContent : String) : List String :=
  (scanLoop htmlContent.data (htmlContent.data.length + 1) 0 []).getD []


/-! ## Data and the outside world -/

/-- A parsed element of a document: its tag name and its attribute map (`element.name`
and `$(element).attr()`), attributes in parser order. -/
structure Element where
  name : String
  attribs : List (String × String)
deriving DecidableEq, Repr

/-- A document loaded by `cheerio.load`: all its elements, in document order (the order in
which `$('*')` and `$('a')` visit them). -/
abbrev Doc := List Element

/-- The record pushed by `logAllElements` (line 142): `{ type, attributes }`. -/
structure ElementRecord where
  elementType : String
  elementAttributes : List (String × String)
deriving DecidableEq, Repr

mutual
/-- A JavaScript value that `response.data` can hold: a string (a body that is not JSON
text, or a JSON string) or another value built by `JSON.parse`.  A number carries the text
that `String(number)` gives. -/
inductive Json where
  | null
  | bool (b : Bool)
  | number (text : String)
  | string (s : String)
  | array (items : JsonItems)
  | object (members : JsonMembers)
deriving DecidableEq
/-- The elements of an array, in order. -/
inductive JsonItems where
  | nil
  | cons (head : Json) (tail : JsonItems)
deriving DecidableEq
/-- The own properties of an object, in order. -/
inductive JsonMembers where
  | nil
  | cons (key : String) (value : Json) (tail : JsonMembers)
deriving DecidableEq
end

/-- Whether an object has an own property named `k`. -/
def JsonMembers.hasKey (k : String) : JsonMembers → Bool
  | .nil => false
  | .cons key _ tail => key == k || tail.hasKey k

mutual
/-- The conversion `String(value)` that `regex.exec(value)` applies to its argument.  A
string is itself; an array is its elements joined by commas; an object gives
`[object Object]` through `Object.prototype.toString`, unless an own property named
`toString` (never callable in a parsed value) hides that method, in which case the
conversion throws a `TypeError`. -/
def Json.toStringJs : Json → Except String String
  | .null => .ok "null"
  | .bool b => .ok (if b then "true" else "false")
  | .number text => .ok text
  | .string s => .ok s
  | .array items => items.joinJs
  | .object members =>
    if members.hasKey "toString" then .error "Cannot convert object to primitive value"
    else .ok "[object Object]"
/-- The result of `Array.prototype.join` with the separator `,`: a `null` element gives the
empty string, any other element its string conversion; the first conversion that throws
ends the call. -/
def JsonItems.joinJs : JsonItems → Except String String
  | .nil => .ok ""
  | .cons x rest =>
    match (match x with
           | .null => Except.ok ""
           | .bool b => Except.ok (if b then "true" else "false")
           | .number text => Except.ok text
           | .string s => Except.ok s
           | .array items => items.joinJs
           | .object members =>
             if members.hasKey "toString" then
               Except.error "Cannot convert object to primitive value"
             else Except.ok "[object Object]" : Except String String) with
    | .error e => .error e
    | .ok first =>
      match rest with
      | .nil => .ok first
      | .cons y more =>
        match (JsonItems.cons y more).joinJs with
        | .error e => .error e
        | .ok others => .ok (first ++ "," ++ others)
end

/-- What the server finally answers to a request, after redirects: the status and the
body text. -/
structure RawResponse where
  status : Nat
  body : String
deriving DecidableEq

/-- The fields of an axios response that the program reads: the status and
`response.data`, the body after the default `transformResponse` of axios. -/
structure Response where
  status : Nat
  data : Json
deriving DecidableEq

/-- The fields of a `URL` object that the program reads. -/
structure ParsedURL where
  protocol : String
  hostname : String
  port : String
deriving DecidableEq, Repr

/-- The object built by `getServerInfo` (lines 124-127). -/
structure ServerInfo where
  serverName : String
  ipAddress : String
deriving DecidableEq, Repr

/-- The place in the program from which the outside world is called: the seed stage, the
iteration `i` of the link loop (0-based), or the iteration `j` of the endpoint loop.  A run
passes each place at most once, so an answer that depends on the place may depend on
everything that happened before. -/
inductive CallSite where
  | seed
  | link (i : Nat)
  | endpoint (j : Nat)
deriving DecidableEq, Repr

deriving instance DecidableEq for Except

/-- Everything the program gets from outside.  An `Except.error m` is a thrown error or a
callback error whose `message` is `m`. -/
structure Env where
  /-- Truthiness of `validUrl.isWebUri(s)`. -/
  isWebUri : String → Bool
  /-- The value of `Math.floor(Math.random() * userAgents.length)`, before reduction into range. -/
  random : Nat
  /-- The constructor `new URL(s)`; it throws on input it cannot parse. -/
  newURL : String → Except String ParsedURL
  /-- The callback result of `dns.lookup(hostname, ...)`. -/
  dnsLookup : String → Except String String
  /-- The callback result of `dns.reverse(address, ...)`. -/
  dnsReverse : String → Except String (List String)
  /-- What the network answers to the GET issued at a call site, after redirects: a
  transport failure or a final status and body. -/
  network : CallSite → String → Except String RawResponse
  /-- The call `JSON.parse(text)`: the value, or `none` when it throws. -/
  jsonParse : String → Option Json
  /-- The largest number of arguments that the engine accepts in a call made at a call
  site; a spread call with more arguments throws a `RangeError`. -/
  maxArguments : CallSite → Nat
  /-- The parser `cheerio.load(initialResponse.data)`. -/
  load : Json → Except String Doc
  /-- The value of `new Date().toISOString()` at a call site. -/
  now : CallSite → String
  /-- The error, if any, passed to the callback of `fs.appendFile` at a call site. -/
  appendFileErr : CallSite → Option String
  /-- The error, if any, passed to the callback of `fs.writeFile`. -/
  writeFileErr : Option String

/-- Observable actions of a run, in program order.  The callback of a file operation runs
at a later time that the model does not fix; it is recorded directly after the statement
that started the operation, and no statement below depends on its place. -/
inductive Effect where
  | consoleLog (text : String)
  | consoleLogValue (label : String) (value : Json)
  | consoleLogElements (label : String) (allElements : List ElementRecord)
  | consoleError (text : String)
  | appendFile (file : String) (text : String)
  | writeFile (file : String) (data : List ElementRecord)
  | get (url : String) (headers : List (String × String))
  | delay (ms : Nat)
deriving DecidableEq

/-- The instance fields of a `WebBot` (lines 14-26). -/
structure Bot where
  url : String
  headers : List (String × String)
  cookies : List String
  logFile : String
  errorLogFile : String
  consecutiveErrors : Nat
  botTrafficCount : Nat
  delayBetweenRequests : Nat
  databaseEndpoints : List String
deriving DecidableEq, Repr

/-! ## The methods of `WebBot` -/

/-- Method `validateUrl` (lines 29-31). -/
def validateUrl (env : Env) (url : String) : Bool := env.isWebUri url

/-- The table of `getRandomUserAgent` (lines 34-39). -/
def userAgents : List String :=
  ["Mozilla/5.0 (Windows NT 10.0; Win64; x64) AppleWebKit/537.36 (KHTML, like Gecko) Chrome/91.0.4472.124 Safari/537.36",
   "Mozilla/5.0 (Windows NT 10.0; Win64; x64) AppleWebKit/537.36 (KHTML, like Gecko) Edge/91.0.864.59 Safari/537.36",
   "Mozilla/5.0 (Windows NT 10.0; Win64; x64; rv:89.0) Gecko/20100101 Firefox/89.0",
   "Mozilla/5.0 (Macintosh; Intel Mac OS X 10_15_7) AppleWebKit/605.1.15 (KHTML, like Gecko) Version/14.1.1 Safari/605.1.15"]

/-- Method `getRandomUserAgent` (lines 33-41). -/
def getRandomUserAgent (env : Env) : String :=
  userAgents.getD (env.random % userAgents.length) ""

/-- The constructor (lines 8-27); `none` is the `process.exit(1)` of an invalid URL. -/
def constructor (env : Env) (url : String) : Option Bot :=
  if validateUrl env url then
    some
      { url := url
        headers := [("User-Agent", getRandomUserAgent env),
                    ("Accept-Language", "en-US,en;q=0.9"),
                    ("Upgrade-Insecure-Requests", "1")]
        cookies := []
        logFile := "web_bot_log.txt"
        errorLogFile := "web_bot_error_log.txt"
        consecutiveErrors := 0
        botTrafficCount := 500
        delayBetweenRequests := 0
        databaseEndpoints := [] }
  else none

/-- The default `transformResponse` of axios (no `responseType` is set): a non-empty body
that `JSON.parse` accepts is replaced by the parsed value, any other body stays the
string it is. -/
def transformResponse (env : Env) (body : String) : Json :=
  if body = "" then .string body
  else
    match env.jsonParse body with
    | some value => value
    | none => .string body

/-- The call `axios.get(url, { headers, maxRedirects: 5, validateStatus, http2: false })`:
the request rejects on a transport failure and on a final status outside `[200, 400)`;
otherwise it resolves with the status and the transformed body. -/
def axiosGet (env : Env) (site : CallSite) (url : String) : Except String Response :=
  match env.network site url with
  | .error e => .error e
  | .ok answer =>
    if 200 ≤ answer.status ∧ answer.status < 400 then
      .ok { status := answer.status, data := transformResponse env answer.body }
    else .error ("Request failed with status code " ++ toString answer.status)

/-- Method `delay` (lines 201-203): the wait of `ms` milliseconds. -/
def delay (ms : Nat) : List Effect := [Effect.delay ms]

/-- The string `errorEntry` of line 206. -/
def errorEntry (timestamp message errorMessage : String) : String :=
  "[" ++ timestamp ++ "] " ++ message ++ ": " ++ errorMessage ++ "\n"

/-- The argument of `console.error` on line 215. -/
def consoleLine (message errorMessage : String) : String :=
  message ++ ": " ++ errorMessage

/-- Method `handleRequestError` (lines 205-216): the append to the error log, the console
line, and the console line of the append callback when the append fails. -/
def handleRequestError (env : Env) (bot : Bot) (site : CallSite)
    (message errorMessage : String) : List Effect :=
  [Effect.appendFile bot.errorLogFile (errorEntry (env.now site) message errorMessage),
   Effect.consoleError (consoleLine message errorMessage)] ++
  (match env.appendFileErr site with
   | some m => [Effect.consoleError ("Error writing to error log file: " ++ m)]
   | none => [])

/-- Method `getServerInfo` (lines 111-134): the promise resolves with the server
information or rejects with the error of the failing step. -/
def getServerInfo (env : Env) (bot : Bot) : Except String ServerInfo :=
  match env.newURL bot.url with
  | .error e => .error e
  | .ok urlObject =>
    match env.dnsLookup urlObject.hostname with
    | .error err => .error err
    | .ok address =>
      match env.dnsReverse address with
      | .error err => .error err
      | .ok hostnames =>
        .ok { serverName :=
                match hostnames.head? with
                | some h => if h = "" then "N/A" else h
                | none => "N/A"
              ipAddress := address }

/-- Method `logAllElements` (lines 136-147): the records and the console line. -/
def logAllElements (doc : Doc) : List ElementRecord × List Effect :=
  let allElements := doc.foldl
    (fun acc element => acc ++ [{ elementType := element.name, elementAttributes := element.attribs }]) []
  (allElements, [Effect.consoleLogElements "All HTML elements on the page:" allElements])

/-- Method `saveToJson` (lines 149-159); the text `JSON.stringify(data, null, 2)` is kept
as the data it serialises. -/
def saveToJson (env : Env) (data : List ElementRecord) : List Effect :=
  let jsonOutputFile := "web_bot_output.json"
  [Effect.writeFile jsonOutputFile data,
   match env.writeFileErr with
   | some m => Effect.consoleError ("Error writing to JSON file: " ++ m)
   | none => Effect.consoleLog ("Data saved to " ++ jsonOutputFile)]

/-- The value of `$(element).attr(name)`: `none` is `undefined`. -/
def attr (element : Element) (name : String) : Option String :=
  element.attribs.lookup name

/-- The selection `$('a')`: the anchor elements in document order. -/
def selectAnchors (doc : Doc) : List Element :=
  doc.filter (fun element => element.name == "a")

/-- The body of the `each` callback of lines 68-73, as a step on `allLinks`. -/
def pushLink (env : Env) (allLinks : List String) (element : Element) : List String :=
  match attr element "href" with
  | some href => if href ≠ "" ∧ env.isWebUri href = true then allLinks ++ [href] else allLinks
  | none => allLinks

/-- Link extraction of `crawlAndParse` (lines 66-73). -/
def extractLinks (env : Env) (doc : Doc) : List String :=
  (selectAnchors doc).foldl (pushLink env) []

/-- The context string of line 98. -/
def linkContext (i : Nat) : String := "Error processing link #" ++ toString (i + 1)

/-- One iteration of the loop of lines 76-102 for the link at index `i`: the `try` body,
the `catch` handler and the `finally` delay.  After the three console lines the `try` body
can still throw at two places: `regex.exec(htmlContent)` converts `response.data` to a
string (line 169), and the spread call `push(...potentialEndpoints)` of line 96 passes
every match as an argument.  A throw there is caught like any other and nothing is
stored. -/
def processLink (env : Env) (bot : Bot) (i : Nat) (link : String) : Bot × List Effect :=
  match env.newURL link with
  | .error error =>
    (bot, handleRequestError env bot (.link i) (linkContext i) error ++
          delay bot.delayBetweenRequests)
  | .ok parsedUrl =>
    let port :=
      if parsedUrl.port ≠ "" then parsedUrl.port
      else if parsedUrl.protocol = "https:" then "443" else "80"
    match axiosGet env (.link i) link with
    | .error error =>
      (bot, [Effect.get link bot.headers] ++
            handleRequestError env bot (.link i) (linkContext i) error ++
            delay bot.delayBetweenRequests)
    | .ok response =>
      let logged :=
        [Effect.get link bot.headers,
         Effect.consoleLog ("Link #" ++ toString (i + 1) ++ " - Status Code: " ++ toString response.status),
         Effect.consoleLog ("Click to open: " ++ link),
         Effect.consoleLog ("Port of the IP address: " ++ port)]
      match response.data.toStringJs with
      | .error error =>
        (bot, logged ++ handleRequestError env bot (.link i) (linkContext i) error ++
              delay bot.delayBetweenRequests)
      | .ok htmlContent =>
        let potentialEndpoints := extractDatabaseEndpoints htmlContent
        if potentialEndpoints.length ≤ env.maxArguments (.link i) then
          ({ bot with databaseEndpoints := bot.databaseEndpoints ++ potentialEndpoints },
           logged ++ delay bot.delayBetweenRequests)
        else
          (bot, logged ++
                handleRequestError env bot (.link i) (linkContext i)
                  "Maximum call stack size exceeded" ++
                delay bot.delayBetweenRequests)

/-- The loop `for (let i = ...; i < allLinks.length; i++)` of lines 76-102, from index `i`
over the remaining links. -/
def linkLoop (env : Env) : List String → Nat → Bot → Bot × List Effect
  | [], _, bot => (bot, [])
  | link :: rest, i, bot =>
    let step := processLink env bot i link
    let tail := linkLoop env rest (i + 1) step.1
    (tail.1, step.2 ++ tail.2)

/-- One iteration of the loop of `inspectDatabase` (lines 180-194). -/
def probeEndpoint (env : Env) (bot : Bot) (j : Nat) (endpoint : String) : List Effect :=
  match axiosGet env (.endpoint j) endpoint with
  | .error error =>
    [Effect.get endpoint bot.headers] ++
    handleRequestError env bot (.endpoint j)
      ("Error inspecting the database at endpoint " ++ endpoint) error ++
    delay bot.delayBetweenRequests
  | .ok databaseInfoResponse =>
    [Effect.get endpoint bot.headers,
     Effect.consoleLogValue ("Database Information from endpoint " ++ endpoint ++ ":")
       databaseInfoResponse.data] ++
    delay bot.delayBetweenRequests

/-- The loop `for (const endpoint of ...)` of lines 179-195, from position `j`. -/
def probeLoop (env : Env) (bot : Bot) : List String → Nat → List Effect
  | [], _ => []
  | endpoint :: rest, j => probeEndpoint env bot j endpoint ++ probeLoop env bot rest (j + 1)

/-- Method `inspectDatabase` (lines 176-199).  No statement of the outer `try` throws
outside the inner `try`, so the outer handler of line 197 is never entered. -/
def inspectDatabase (env : Env) (bot : Bot) : List Effect :=
  probeLoop env bot bot.databaseEndpoints 0

/-- How a call of `crawlAndParse` ended: `done` when the `try` block ran to the end of
`inspectDatabase` (line 105), `aborted` when the handler of line 107 was entered. -/
inductive Outcome where
  | done
  | aborted
deriving DecidableEq, Repr

/-- What a call of `crawlAndParse` produced: the bot afterwards and the effects of the
seed stage (lines 45-73 and the handler of line 107), of the link loop (lines 76-102) and
of `inspectDatabase` (line 105). -/
structure RunResult where
  bot : Bot
  seedStage : List Effect
  linkPhase : List Effect
  probePhase : List Effect
  outcome : Outcome
deriving DecidableEq

/-- All effects of a run, in order. -/
def RunResult.trace (r : RunResult) : List Effect :=
  r.seedStage ++ r.linkPhase ++ r.probePhase

/-- The context string of line 107. -/
def crawlContext : String := "Error during the crawling and parsing process"

/-- Method `crawlAndParse` (lines 43-109). -/
def crawlAndParse (env : Env) (bot : Bot) : RunResult :=
  match getServerInfo env bot with
  | .error error =>
    { bot := bot, linkPhase := [], probePhase := [], outcome := .aborted
      seedStage := handleRequestError env bot .seed crawlContext error }
  | .ok serverInfo =>
    let greeting :=
      [Effect.consoleLog ("Server Name: " ++ serverInfo.serverName),
       Effect.consoleLog ("Server IP Address: " ++ serverInfo.ipAddress),
       Effect.get bot.url bot.headers]
    match axiosGet env .seed bot.url with
    | .error error =>
      { bot := bot, linkPhase := [], probePhase := [], outcome := .aborted
        seedStage := greeting ++ handleRequestError env bot .seed crawlContext error }
    | .ok initialResponse =>
      match env.load initialResponse.data with
      | .error error =>
        { bot := bot, linkPhase := [], probePhase := [], outcome := .aborted
          seedStage := greeting ++ handleRequestError env bot .seed crawlContext error }
      | .ok doc =>
        let logged := logAllElements doc
        let allLinks := extractLinks env doc
        let links := linkLoop env allLinks 0 bot
        { bot := links.1
          seedStage := greeting ++ logged.2 ++ saveToJson env logged.1
          linkPhase := links.2
          probePhase := inspectDatabase env links.1
          outcome := .done }

/-! ## The endpoint heuristic as the specification words it -/

/-- The 10-character literal of the specification. -/
def literal : List Char := "/database/".data

/-- A case-insensitive occurrence of the literal at position `p` of `text`: the ten
characters from `p` on, lower-cased, are the literal. -/
def occursAt (text : List Char) (p : Nat) : Prop :=
  ((text.drop p).take 10).map Char.toLower = literal

instance (text : List Char) (p : Nat) : Decidable (occursAt text p) :=
  inferInstanceAs (Decidable (_ = _))

/-- The positions `ps` are the leftmost non-overlapping occurrences of the literal in
`text` at or after `start`: each is the first occurrence not before the end of the
previous one, and no occurrence follows the last. -/
def LeftmostOccurrences (text : List Char) : Nat → List Nat → Prop
  | start, [] => ∀ q, start ≤ q → ¬ occursAt text q
  | start, p :: ps =>
    start ≤ p ∧ occursAt text p ∧ (∀ q, start ≤ q → q < p → ¬ occursAt text q) ∧
      LeftmostOccurrences text (p + 10) ps

/-- The matched substring at position `p`: ten characters of the text, as they are. -/
def matchedText (text : List Char) (p : Nat) : String :=
  String.mk ((text.drop p).take 10)

/-! ## Reading a list of effects -/

/-- The URLs passed to `axios.get`, in order. -/
def fetchedUrls (fx : List Effect) : List String :=
  fx.filterMap (fun e => match e with
    | .get url _ => some url
    | _ => none)

/-- The texts handed to `fs.appendFile` for the file `file`, in order.  Only
`handleRequestError` appends to a file, once per call, so these are the error reports. -/
def appended (file : String) (fx : List Effect) : List String :=
  fx.filterMap (fun e => match e with
    | .appendFile f text => if f = file then some text else none
    | _ => none)

/-- The texts written with `console.error`, in order. -/
def consoleErrors (fx : List Effect) : List String :=
  fx.filterMap (fun e => match e with
    | .consoleError text => some text
    | _ => none)

/-- The waits of `this.delay(ms)`, in order. -/
def delays (fx : List Effect) : List Nat :=
  fx.filterMap (fun e => match e with
    | .delay ms => some ms
    | _ => none)

/-- How the request of the link at index `i` ends: with the response of the fetch, or
with the error thrown by the `URL` constructor or by the fetch. -/
def linkResult (env : Env) (i : Nat) (link : String) : Except String Response :=
  match env.newURL link with
  | .error e => .error e
  | .ok _ => axiosGet env (.link i) link

/-- How the rest of the `try` body ends after a successful fetch (lines 95-96): with the
matches that are pushed, or with the error thrown by the string conversion of
`response.data` or by the spread call. -/
def scanResult (env : Env) (i : Nat) (response : Response) : Except String (List String) :=
  match response.data.toStringJs with
  | .error e => .error e
  | .ok htmlContent =>
    if (extractDatabaseEndpoints htmlContent).length ≤ env.maxArguments (.link i) then
      .ok (extractDatabaseEndpoints htmlContent)
    else .error "Maximum call stack size exceeded"

/-- How the whole `try` body of the link at index `i` ends: with the matches that are
pushed, or with the error that is thrown. -/
def tryResult (env : Env) (i : Nat) (link : String) : Except String (List String) :=
  match linkResult env i link with
  | .error e => .error e
  | .ok response => scanResult env i response

/-- Whether the processing after the fetch runs to its end for the link at index `i`,
if its fetch succeeds. -/
def completes (env : Env) (i : Nat) (link : String) : Bool :=
  match linkResult env i link with
  | .error _ => true
  | .ok response => (scanResult env i response).isOk

/-- The endpoints that the link at index `i` adds: what its `try` body pushes. -/
def linkEndpoints (env : Env) (i : Nat) (link : String) : List String :=
  match tryResult env i link with
  | .ok pushed => pushed
  | .error _ => []

/-- The error-log line of the link at index `i`, if its `try` body throws. -/
def linkReport (env : Env) (i : Nat) (link : String) : Option String :=
  match tryResult env i link with
  | .ok _ => none
  | .error e => some (errorEntry (env.now (.link i)) (linkContext i) e)

/-- The error-log line of the link at index `i`, if its URL construction or its fetch
fails. -/
def failureReport (env : Env) (i : Nat) (link : String) : Option String :=
  match linkResult env i link with
  | .ok _ => none
  | .error e => some (errorEntry (env.now (.link i)) (linkContext i) e)

/-- The href that an anchor contributes to the link list, if any: it is present,
non-empty and accepted by the validator. -/
def acceptedHref (env : Env) (element : Element) : Option String :=
  match attr element "href" with
  | some href => if href ≠ "" ∧ env.isWebUri href = true then some href else none
  | none => none

/-- The shape of every stored endpoint: ten characters that lower-case to the literal. -/
def IsBareMatch (e : String) : Prop :=
  e.length = 10 ∧ e.toLower = "/database/" ∧ e.data.head? = some '/'

/-- Whether a fetch was issued for the link at index `i` and failed. -/
def fetchFails (env : Env) (i : Nat) (link : String) : Bool :=
  match env.newURL link with
  | .error _ => false
  | .ok _ => !(axiosGet env (.link i) link).isOk

/-! ## Sample worlds

Concrete environments on which the statements below are evaluated. -/

/-- The body served for the seed URL in the sample worlds. -/
def seedBody : String := "<html>seed</html>"

/-- A seed document with three anchors carrying absolute links, after two other elements. -/
def threeLinkDoc : Doc :=
  [{ name := "html", attribs := [] },
   { name := "body", attribs := [("class", "main")] },
   { name := "a", attribs := [("href", "https://a.test/1")] },
   { name := "a", attribs := [("id", "second"), ("href", "https://b.test/2")] },
   { name := "a", attribs := [("href", "https://c.test/3")] }]

/-- The document of the specification example: an absolute link, a relative link and an
anchor without `href`. -/
def mixedDoc : Doc :=
  [{ name := "a", attribs := [("href", "https://a.test/1")] },
   { name := "a", attribs := [("href", "/rel")] },
   { name := "a", attribs := [] }]

/-- A document whose only anchor carries a port above 65535: `valid-url` does not check
the range of a port, while the `URL` constructor rejects such a port. -/
def bigPortDoc : Doc :=
  [{ name := "a", attribs := [("href", "http://a.test:99999999/")] }]

/-- A document without anchors. -/
def noLinkDoc : Doc :=
  [{ name := "html", attribs := [] }, { name := "p", attribs := [] }]

/-- A validator that accepts the absolute links of the sample documents. -/
def sampleIsWebUri (s : String) : Bool :=
  s = "https://seed.test/" ∨ s = "https://a.test/1" ∨ s = "https://b.test/2" ∨
    s = "https://c.test/3" ∨ s = "http://a.test:99999999/"

/-- A `URL` constructor for the sample links: it throws on the link whose port is out of
range and on every string it does not know. -/
def sampleNewURL (s : String) : Except String ParsedURL :=
  if s = "https://seed.test/" then .ok { protocol := "https:", hostname := "seed.test", port := "" }
  else if s = "https://a.test/1" then .ok { protocol := "https:", hostname := "a.test", port := "" }
  else if s = "https://b.test/2" then .ok { protocol := "https:", hostname := "b.test", port := "" }
  else if s = "https://c.test/3" then .ok { protocol := "https:", hostname := "c.test", port := "" }
  else .error "Invalid URL"

/-- A network in which the seed and the links 1 and 3 answer 200, the second link
answers 500, and every probe of an endpoint fails.  The bodies of the links 1 and 3 both
contain the text `/database/`. -/
def sampleNetwork (site : CallSite) (_url : String) : Except String RawResponse :=
  match site with
  | .seed => .ok { status := 200, body := seedBody }
  | .link 0 => .ok { status := 200, body := "see /database/users and /Database/logs" }
  | .link 1 => .ok { status := 500, body := "oops /database/" }
  | .link _ => .ok { status := 200, body := "x/DATABASE/y and /database/" }
  | .endpoint _ => .error "connect ECONNREFUSED 127.0.0.1:80"

/-- The JSON text of an object with one property that names a database path. -/
def jsonBody : String := "\x7b\"next\":\"/database/users\"\x7d"

/-- The function `JSON.parse` on the bodies of the sample worlds: it accepts `jsonBody` and
throws on the other bodies, none of which is JSON text. -/
def sampleJsonParse (text : String) : Option Json :=
  if text = jsonBody then
    some (.object (.cons "next" (.string "/database/users") .nil))
  else none

/-- The world of the specification example: three links, the fetch of the second fails. -/
def sampleEnv : Env :=
  { isWebUri := sampleIsWebUri
    random := 6
    newURL := sampleNewURL
    dnsLookup := fun _ => .ok "192.0.2.1"
    dnsReverse := fun _ => .ok ["seed.test"]
    network := sampleNetwork
    jsonParse := sampleJsonParse
    maxArguments := fun _ => 120000
    load := fun _ => .ok threeLinkDoc
    now := fun _ => "2024-01-01T00:00:00.000Z"
    appendFileErr := fun _ => none
    writeFileErr := none }

/-- The bot that the constructor builds in the sample world. -/
def sampleBot : Bot :=
  { url := "https://seed.test/"
    headers := [("User-Agent", "Mozilla/5.0 (Windows NT 10.0; Win64; x64; rv:89.0) Gecko/20100101 Firefox/89.0"),
                ("Accept-Language", "en-US,en;q=0.9"),
                ("Upgrade-Insecure-Requests", "1")]
    cookies := []
    logFile := "web_bot_log.txt"
    errorLogFile := "web_bot_error_log.txt"
    consecutiveErrors := 0
    botTrafficCount := 500
    delayBetweenRequests := 0
    databaseEndpoints := [] }

/-- The sample world with a seed page whose only link has a port out of range. -/
def bigPortEnv : Env := { sampleEnv with load := fun _ => .ok bigPortDoc }

/-- The sample world with a seed page without links. -/
def noLinkEnv : Env := { sampleEnv with load := fun _ => .ok noLinkDoc }

/-- The sample world with a forward DNS record and no reverse record. -/
def noReverseEnv : Env := { sampleEnv with dnsReverse := fun _ => .error "getHostByAddr ENOTFOUND 192.0.2.1" }

/-- The sample world with a reverse lookup that answers with no name. -/
def emptyReverseEnv : Env := { sampleEnv with dnsReverse := fun _ => .ok [] }

/-- The sample world without a forward DNS record. -/
def noForwardEnv : Env := { sampleEnv with dnsLookup := fun _ => .error "getaddrinfo ENOTFOUND seed.test" }

/-- A document whose only anchor carries the first sample link. -/
def oneLinkDoc : Doc :=
  [{ name := "a", attribs := [("href", "https://a.test/1")] }]

/-- The sample world with a seed page of one link, which answers 200 with `jsonBody`. -/
def jsonEnv : Env :=
  { sampleEnv with
      load := fun _ => .ok oneLinkDoc
      network := fun site url =>
        match site with
        | .link _ => .ok { status := 200, body := jsonBody }
        | _ => sampleNetwork site url }

/-- The sample world in which the seed fetch fails. -/
def seedDownEnv : Env :=
  { sampleEnv with
      network := fun site url =>
        match site with
        | .seed => .error "socket hang up"
        | _ => sampleNetwork site url }

/-! ## Lemmas on the regular expression scan -/

theorem fold_ascii : ∀ n, n < 128 → ∀ p ∈ regexSource,
    (canonicalize p = canonicalize (Char.ofNat n) ↔ (Char.ofNat n).toLower = p) := by
  decide

theorem fold_iff (p c : Char) (hp : p ∈ regexSource) :
    canonicalize p = canonicalize c ↔ c.toLower = p := by
  by_cases hc : c.toNat < 128
  · have := fold_ascii c.toNat hc p hp
    simpa using this
  · have hu : c.toUpper = c := by
      unfold Char.toUpper
      simp only []
      rw [if_neg]; omega
    have hl : c.toLower = c := by
      unfold Char.toLower
      simp only []
      rw [if_neg]; omega
    have hp1 : p.toNat < 128 := by
      revert p; decide
    have hp2 : p.toUpper.toNat < 128 := by
      revert p; decide
    unfold canonicalize
    rw [hu, hl]
    constructor
    · intro h; rw [← h] at hc; exact absurd hp2 hc
    · intro h; rw [h] at hc; exact absurd hp1 hc

theorem matchHere_iff (pat : List Char) (hpat : ∀ p ∈ pat, p ∈ regexSource) :
    ∀ (input m : List Char), matchHere pat input = some m ↔
      (m = input.take pat.length ∧ (input.take pat.length).map Char.toLower = pat) := by
  induction pat with
  | nil => intro input m; simp [matchHere, eq_comm]
  | cons p ps ih =>
    intro input m
    cases input with
    | nil => simp [matchHere]
    | cons c cs =>
      have hp : p ∈ regexSource := hpat p (List.mem_cons_self _ _)
      have ih' := ih (fun q hq => hpat q (List.mem_cons_of_mem _ hq)) cs
      simp only [matchHere, List.length_cons, List.take_succ_cons, List.map_cons,
        List.cons.injEq]
      by_cases h : canonicalize p = canonicalize c
      · have hc : c.toLower = p := (fold_iff p c hp).1 h
        rw [if_pos h]
        constructor
        · intro hm
          rcases Option.map_eq_some'.1 hm with ⟨m', hm', rfl⟩
          rcases (ih' m').1 hm' with ⟨h1, h2⟩
          exact ⟨by rw [h1], hc, h2⟩
        · rintro ⟨rfl, -, h2⟩
          exact Option.map_eq_some'.2 ⟨_, (ih' _).2 ⟨rfl, h2⟩, rfl⟩
      · have hc : ¬ c.toLower = p := fun hc => h ((fold_iff p c hp).2 hc)
        rw [if_neg h]
        constructor
        · intro hm; cases hm
        · rintro ⟨-, hc', -⟩; exact absurd hc' hc

theorem regexSource_eq_literal : regexSource = literal := by decide

theorem matchHere_regex_iff (input m : List Char) :
    matchHere regexSource input = some m ↔ (m = input.take 10 ∧ occursAt input 0) := by
  have h := matchHere_iff regexSource (fun _ h => h) input m
  have hl : regexSource.length = 10 := by decide
  rw [hl] at h
  rw [h, occursAt, List.drop_zero, regexSource_eq_literal]

theorem occursAt_drop (text : List Char) (a k : Nat) :
    occursAt (text.drop a) k ↔ occursAt text (a + k) := by
  unfold occursAt
  rw [List.drop_drop, Nat.add_comm]

theorem occursAt_length (text : List Char) (p : Nat) (h : occursAt text p) :
    p + 10 ≤ text.length := by
  unfold occursAt at h
  have hlen := congrArg List.length h
  rw [List.length_map, List.length_take, List.length_drop] at hlen
  have : literal.length = 10 := by decide
  omega

theorem matchHere_none_iff (input : List Char) :
    matchHere regexSource input = none ↔ ¬ occursAt input 0 := by
  constructor
  · intro h ho
    have := (matchHere_regex_iff input (input.take 10)).2 ⟨rfl, ho⟩
    rw [h] at this; cases this
  · intro h
    cases hm : matchHere regexSource input with
    | none => rfl
    | some m => exact absurd ((matchHere_regex_iff input m).1 hm).2 h

theorem execFrom_none (rest : List Char) :
    ∀ idx, execFrom rest idx = none → ∀ k, ¬ occursAt rest k := by
  induction rest with
  | nil =>
    intro idx _ k h
    have := occursAt_length [] k h
    simp at this
  | cons c cs ih =>
    intro idx h k
    unfold execFrom at h
    cases hm : matchHere regexSource (c :: cs) with
    | some m => rw [hm] at h; cases h
    | none =>
      rw [hm] at h
      cases k with
      | zero => exact (matchHere_none_iff _).1 hm
      | succ k =>
        have := ih (idx + 1) h k
        intro ho; apply this
        unfold occursAt at ho ⊢
        simpa using ho

theorem execFrom_some (rest : List Char) :
    ∀ idx m li, execFrom rest idx = some (m, li) →
      ∃ k, occursAt rest k ∧ m = (rest.drop k).take 10 ∧ li = idx + k + 10 ∧
        ∀ j, j < k → ¬ occursAt rest j := by
  induction rest with
  | nil =>
    intro idx m li h
    simp [execFrom, matchHere, regexSource] at h
  | cons c cs ih =>
    intro idx m li h
    unfold execFrom at h
    cases hm : matchHere regexSource (c :: cs) with
    | some m' =>
      rw [hm] at h
      simp only [Option.some.injEq, Prod.mk.injEq] at h
      rcases h with ⟨rfl, rfl⟩
      rcases (matchHere_regex_iff _ _).1 hm with ⟨h1, h2⟩
      refine ⟨0, h2, by simpa using h1, ?_, fun j hj => absurd hj (Nat.not_lt_zero j)⟩
      have hlen := occursAt_length _ 0 h2
      have : m'.length = 10 := by
        rw [h1, List.length_take]; omega
      omega
    | none =>
      rw [hm] at h
      rcases ih (idx + 1) m li h with ⟨k, h1, h2, h3, h4⟩
      refine ⟨k + 1, ?_, by simpa using h2, by omega, ?_⟩
      · unfold occursAt at h1 ⊢; simpa using h1
      · intro j hj
        cases j with
        | zero => exact (matchHere_none_iff _).1 hm
        | succ j =>
          have := h4 j (by omega)
          intro ho; apply this
          unfold occursAt at ho ⊢; simpa using ho

/-- With more iterations allowed than characters remain, the loop of
`extractDatabaseEndpoints` ends with `exec` returning `null`, and what it has pushed are the
matched texts of the leftmost non-overlapping occurrences from `lastIndex` on. -/
theorem scanLoop_enough_fuel (input : List Char) :
    ∀ fuel lastIndex acc, lastIndex ≤ input.length → input.length < lastIndex + fuel →
      ∃ ps, LeftmostOccurrences input lastIndex ps ∧
        scanLoop input fuel lastIndex acc = some (acc ++ ps.map (matchedText input)) := by
  intro fuel
  induction fuel with
  | zero => intro li acc h1 h2; omega
  | succ fuel ih =>
    intro li acc h1 h2
    unfold scanLoop regexExec
    rw [if_neg (by omega)]
    cases he : execFrom (input.drop li) li with
    | none =>
      refine ⟨[], ?_, by simp⟩
      intro q hq ho
      have := execFrom_none _ _ he (q - li)
      rw [occursAt_drop] at this
      apply this
      have : li + (q - li) = q := by omega
      rw [this]; exact ho
    | some r =>
      obtain ⟨m, li'⟩ := r
      rcases execFrom_some _ _ _ _ he with ⟨k, hk1, hk2, hk3, hk4⟩
      rw [occursAt_drop] at hk1
      have hlen := occursAt_length _ _ hk1
      rcases ih li' (acc ++ [String.mk m]) (by omega) (by omega) with ⟨ps, hps1, hps2⟩
      refine ⟨(li + k) :: ps, ⟨by omega, hk1, ?_, ?_⟩, ?_⟩
      · intro q hq1 hq2 ho
        have := hk4 (q - li) (by omega)
        rw [occursAt_drop] at this
        apply this
        have : li + (q - li) = q := by omega
        rw [this]; exact ho
      · rw [hk3] at hps1; exact hps1
      · simp only []
        rw [hps2]
        simp [matchedText, hk2, List.drop_drop, Nat.add_comm]

theorem leftmostOccurrences_unique (text : List Char) :
    ∀ ps start ps', LeftmostOccurrences text start ps → LeftmostOccurrences text start ps' →
      ps = ps' := by
  intro ps
  induction ps with
  | nil =>
    intro start ps' h h'
    cases ps' with
    | nil => rfl
    | cons p' ps' => exact absurd h'.2.1 (h p' h'.1)
  | cons p ps ih =>
    intro start ps' h h'
    cases ps' with
    | nil => exact absurd h.2.1 (h' p h.1)
    | cons p' ps' =>
      rcases h with ⟨h1, h2, h3, h4⟩
      rcases h' with ⟨h1', h2', h3', h4'⟩
      have hpp : p = p' := by
        rcases Nat.lt_trichotomy p p' with hlt | heq | hgt
        · exact absurd h2 (h3' p h1 hlt)
        · exact heq
        · exact absurd h2' (h3 p' h1' hgt)
      subst hpp
      rw [ih (p + 10) ps' h4 h4']

/-! ## Lemmas on the crawl -/

theorem fetchedUrls_append (a b : List Effect) :
    fetchedUrls (a ++ b) = fetchedUrls a ++ fetchedUrls b := by
  simp [fetchedUrls]

theorem appended_append (file : String) (a b : List Effect) :
    appended file (a ++ b) = appended file a ++ appended file b := by
  simp [appended]

theorem delays_append (a b : List Effect) : delays (a ++ b) = delays a ++ delays b := by
  simp [delays, delay]

theorem consoleErrors_append (a b : List Effect) :
    consoleErrors (a ++ b) = consoleErrors a ++ consoleErrors b := by
  simp [consoleErrors]

theorem fetchedUrls_handleRequestError (env : Env) (bot : Bot) (site : CallSite)
    (message errorMessage : String) :
    fetchedUrls (handleRequestError env bot site message errorMessage) = [] := by
  unfold handleRequestError
  cases env.appendFileErr site <;> simp [fetchedUrls, delay]

theorem delays_handleRequestError (env : Env) (bot : Bot) (site : CallSite)
    (message errorMessage : String) :
    delays (handleRequestError env bot site message errorMessage) = [] := by
  unfold handleRequestError
  cases env.appendFileErr site <;> simp [delays, delay]

theorem appended_handleRequestError (env : Env) (bot : Bot) (site : CallSite)
    (message errorMessage : String) :
    appended bot.errorLogFile (handleRequestError env bot site message errorMessage) =
      [errorEntry (env.now site) message errorMessage] := by
  unfold handleRequestError
  cases env.appendFileErr site <;> simp [appended, delay]

theorem processLink_bot (env : Env) (bot : Bot) (i : Nat) (link : String) :
    (processLink env bot i link).1 =
      { bot with databaseEndpoints := bot.databaseEndpoints ++ linkEndpoints env i link } := by
  unfold processLink linkEndpoints tryResult linkResult scanResult
  cases h1 : env.newURL link with
  | error e => simp
  | ok u =>
    cases h2 : axiosGet env (.link i) link with
    | error e => simp
    | ok r =>
      dsimp only
      cases h3 : r.data.toStringJs with
      | error e => simp
      | ok text =>
        by_cases h4 : (extractDatabaseEndpoints text).length ≤ env.maxArguments (.link i)
        · simp [h4]
        · simp [h4]

theorem processLink_fetched (env : Env) (bot : Bot) (i : Nat) (link : String) :
    fetchedUrls (processLink env bot i link).2 =
      if (env.newURL link).isOk then [link] else [] := by
  unfold processLink handleRequestError
  cases h1 : env.newURL link with
  | error e =>
    cases env.appendFileErr (.link i) <;> simp [fetchedUrls, delay, Except.isOk, Except.toBool]
  | ok u =>
    cases h2 : axiosGet env (.link i) link with
    | error e =>
      cases env.appendFileErr (.link i) <;> simp [fetchedUrls, delay, Except.isOk, Except.toBool]
    | ok r =>
      dsimp only
      cases h3 : r.data.toStringJs with
      | error e =>
        cases env.appendFileErr (.link i) <;>
          simp [fetchedUrls, delay, Except.isOk, Except.toBool]
      | ok text =>
        by_cases h4 : (extractDatabaseEndpoints text).length ≤ env.maxArguments (.link i)
        · simp [h4, fetchedUrls, delay, Except.isOk, Except.toBool]
        · cases env.appendFileErr (.link i) <;>
            simp [h4, fetchedUrls, delay, Except.isOk, Except.toBool]

theorem processLink_appended (env : Env) (bot : Bot) (i : Nat) (link : String) :
    appended bot.errorLogFile (processLink env bot i link).2 =
      (linkReport env i link).toList := by
  unfold processLink linkReport tryResult linkResult scanResult handleRequestError
  cases h1 : env.newURL link with
  | error e =>
    cases env.appendFileErr (.link i) <;> simp [appended, delay]
  | ok u =>
    cases h2 : axiosGet env (.link i) link with
    | error e =>
      cases env.appendFileErr (.link i) <;> simp [appended, delay]
    | ok r =>
      dsimp only
      cases h3 : r.data.toStringJs with
      | error e =>
        cases env.appendFileErr (.link i) <;> simp [appended, delay]
      | ok text =>
        by_cases h4 : (extractDatabaseEndpoints text).length ≤ env.maxArguments (.link i)
        · simp [h4, appended, delay]
        · cases env.appendFileErr (.link i) <;> simp [h4, appended, delay]

theorem processLink_delays (env : Env) (bot : Bot) (i : Nat) (link : String) :
    delays (processLink env bot i link).2 = [bot.delayBetweenRequests] := by
  unfold processLink handleRequestError
  cases h1 : env.newURL link with
  | error e =>
    cases env.appendFileErr (.link i) <;> simp [delays, delay]
  | ok u =>
    cases h2 : axiosGet env (.link i) link with
    | error e =>
      cases env.appendFileErr (.link i) <;> simp [delays, delay]
    | ok r =>
      dsimp only
      cases h3 : r.data.toStringJs with
      | error e =>
        cases env.appendFileErr (.link i) <;> simp [delays, delay]
      | ok text =>
        by_cases h4 : (extractDatabaseEndpoints text).length ≤ env.maxArguments (.link i)
        · simp [h4, delays, delay]
        · cases env.appendFileErr (.link i) <;> simp [h4, delays, delay]

theorem linkLoop_bot (env : Env) :
    ∀ (links : List String) (i : Nat) (bot : Bot),
      (linkLoop env links i bot).1 =
        { bot with databaseEndpoints := bot.databaseEndpoints ++
            (links.enumFrom i).flatMap (fun kl => linkEndpoints env kl.1 kl.2) } := by
  intro links
  induction links with
  | nil => intro i bot; simp [linkLoop]
  | cons l rest ih =>
    intro i bot
    simp only [linkLoop, ih, processLink_bot, List.enumFrom_cons, List.flatMap_cons,
      List.append_assoc]

theorem linkLoop_fetched (env : Env) :
    ∀ (links : List String) (i : Nat) (bot : Bot),
      fetchedUrls (linkLoop env links i bot).2 =
        links.filter (fun l => (env.newURL l).isOk) := by
  intro links
  induction links with
  | nil => intro i bot; simp [linkLoop, fetchedUrls]
  | cons l rest ih =>
    intro i bot
    simp only [linkLoop, fetchedUrls_append, ih, processLink_fetched, List.filter_cons]
    cases (env.newURL l).isOk <;> simp

theorem linkLoop_appended (env : Env) :
    ∀ (links : List String) (i : Nat) (bot : Bot),
      appended bot.errorLogFile (linkLoop env links i bot).2 =
        (links.enumFrom i).filterMap (fun kl => linkReport env kl.1 kl.2) := by
  intro links
  induction links with
  | nil => intro i bot; simp [linkLoop, appended]
  | cons l rest ih =>
    intro i bot
    have hfile : (processLink env bot i l).1.errorLogFile = bot.errorLogFile := by
      rw [processLink_bot]
    have := ih (i + 1) (processLink env bot i l).1
    rw [hfile] at this
    simp only [linkLoop, appended_append, this, processLink_appended, List.enumFrom_cons,
      List.filterMap_cons]
    cases linkReport env i l <;> simp

theorem linkLoop_delays (env : Env) :
    ∀ (links : List String) (i : Nat) (bot : Bot),
      delays (linkLoop env links i bot).2 =
        List.replicate links.length bot.delayBetweenRequests := by
  intro links
  induction links with
  | nil => intro i bot; simp [linkLoop, delays]
  | cons l rest ih =>
    intro i bot
    have hd : (processLink env bot i l).1.delayBetweenRequests = bot.delayBetweenRequests := by
      rw [processLink_bot]
    simp only [linkLoop, delays_append, ih, processLink_delays, hd, List.length_cons,
      List.replicate_succ]
    simp

theorem probeEndpoint_fetched (env : Env) (bot : Bot) (j : Nat) (endpoint : String) :
    fetchedUrls (probeEndpoint env bot j endpoint) = [endpoint] := by
  unfold probeEndpoint handleRequestError
  cases h : axiosGet env (.endpoint j) endpoint with
  | error e =>
    cases env.appendFileErr (.endpoint j) <;> simp [fetchedUrls, delay]
  | ok r => simp [fetchedUrls, delay]

theorem probeLoop_fetched (env : Env) (bot : Bot) :
    ∀ (endpoints : List String) (j : Nat),
      fetchedUrls (probeLoop env bot endpoints j) = endpoints := by
  intro endpoints
  induction endpoints with
  | nil => intro j; simp [probeLoop, fetchedUrls]
  | cons e rest ih =>
    intro j
    simp [probeLoop, fetchedUrls_append, ih, probeEndpoint_fetched]

/-- The run after a successful seed stage. -/
theorem crawlAndParse_of_seed_ok (env : Env) (bot : Bot) (serverInfo : ServerInfo)
    (initialResponse : Response) (doc : Doc)
    (h1 : getServerInfo env bot = .ok serverInfo)
    (h2 : axiosGet env .seed bot.url = .ok initialResponse)
    (h3 : env.load initialResponse.data = .ok doc) :
    (crawlAndParse env bot).outcome = .done ∧
    (crawlAndParse env bot).bot = (linkLoop env (extractLinks env doc) 0 bot).1 ∧
    (crawlAndParse env bot).linkPhase = (linkLoop env (extractLinks env doc) 0 bot).2 ∧
    (crawlAndParse env bot).probePhase =
      inspectDatabase env (linkLoop env (extractLinks env doc) 0 bot).1 ∧
    (crawlAndParse env bot).seedStage =
      [Effect.consoleLog ("Server Name: " ++ serverInfo.serverName),
       Effect.consoleLog ("Server IP Address: " ++ serverInfo.ipAddress),
       Effect.get bot.url bot.headers] ++ (logAllElements doc).2 ++
        saveToJson env (logAllElements doc).1 := by
  simp [crawlAndParse, h1, h2, h3]

theorem processLink_effects_db (env : Env) (bot : Bot) (i : Nat) (link : String)
    (eps : List String) :
    (processLink env { bot with databaseEndpoints := eps } i link).2 =
      (processLink env bot i link).2 := by
  unfold processLink handleRequestError
  cases h1 : env.newURL link with
  | error e => rfl
  | ok u =>
    cases h2 : axiosGet env (.link i) link with
    | error e => rfl
    | ok r =>
      dsimp only
      cases h3 : r.data.toStringJs with
      | error e => rfl
      | ok text =>
        by_cases h4 : (extractDatabaseEndpoints text).length ≤ env.maxArguments (.link i)
        · simp only [h4, if_true]
        · simp only [h4, if_false]

theorem linkLoop_effects (env : Env) :
    ∀ (links : List String) (i : Nat) (bot : Bot),
      (linkLoop env links i bot).2 =
        (links.enumFrom i).flatMap (fun kl => (processLink env bot kl.1 kl.2).2) := by
  intro links
  induction links with
  | nil => intro i bot; simp [linkLoop]
  | cons l rest ih =>
    intro i bot
    simp only [linkLoop, ih, processLink_bot, processLink_effects_db, List.enumFrom_cons,
      List.flatMap_cons]

theorem extractDatabaseEndpoints_spec (s : String) :
    ∃ ps, LeftmostOccurrences s.data 0 ps ∧
      scanLoop s.data (s.data.length + 1) 0 [] = some (ps.map (matchedText s.data)) ∧
      extractDatabaseEndpoints s = ps.map (matchedText s.data) := by
  rcases scanLoop_enough_fuel s.data (s.data.length + 1) 0 [] (Nat.zero_le _) (by omega)
    with ⟨ps, h1, h2⟩
  rw [List.nil_append] at h2
  exact ⟨ps, h1, h2, by unfold extractDatabaseEndpoints; rw [h2]; rfl⟩

theorem leftmostOccurrences_mem (text : List Char) :
    ∀ ps start, LeftmostOccurrences text start ps → ∀ p ∈ ps, occursAt text p := by
  intro ps
  induction ps with
  | nil => intro start _ p hp; cases hp
  | cons a ps ih =>
    intro start h p hp
    rcases List.mem_cons.1 hp with rfl | hp'
    · exact h.2.1
    · exact ih _ h.2.2.2 p hp'

theorem toLower_eq_slash (c : Char) (h : c.toLower = '/') : c = '/' := by
  by_cases hc : c.toNat < 128
  · have key : ∀ n, n < 128 → (Char.ofNat n).toLower = '/' → Char.ofNat n = '/' := by decide
    have := key c.toNat hc
    rw [Char.ofNat_toNat] at this
    exact this h
  · have hl : c.toLower = c := by
      unfold Char.toLower
      simp only []
      rw [if_neg]; omega
    rw [hl] at h; exact h

theorem isBareMatch_matchedText (text : List Char) (p : Nat) (h : occursAt text p) :
    IsBareMatch (matchedText text p) := by
  have hlen := occursAt_length text p h
  unfold occursAt at h
  refine ⟨?_, ?_, ?_⟩
  · show ((text.drop p).take 10).length = 10
    rw [List.length_take, List.length_drop]; omega
  · unfold String.toLower matchedText
    rw [String.map_eq]
    show String.mk (((text.drop p).take 10).map Char.toLower) = "/database/"
    rw [h]; rfl
  · show ((text.drop p).take 10).head? = some '/'
    cases hl : (text.drop p).take 10 with
    | nil => rw [hl] at h; exact absurd h (by decide)
    | cons c cs =>
      rw [hl] at h
      have hc : c.toLower = '/' := by
        have := congrArg List.head? h
        simpa [literal] using this
      rw [toLower_eq_slash c hc]; rfl

theorem isBareMatch_of_mem_extract (s e : String) (h : e ∈ extractDatabaseEndpoints s) :
    IsBareMatch e := by
  rcases extractDatabaseEndpoints_spec s with ⟨ps, h1, -, h3⟩
  rw [h3] at h
  rcases List.mem_map.1 h with ⟨p, hp, rfl⟩
  exact isBareMatch_matchedText _ _ (leftmostOccurrences_mem _ _ _ h1 p hp)

theorem isBareMatch_of_mem_linkEndpoints (env : Env) (i : Nat) (link e : String)
    (h : e ∈ linkEndpoints env i link) : IsBareMatch e := by
  unfold linkEndpoints tryResult at h
  cases hr : linkResult env i link with
  | error m => rw [hr] at h; cases h
  | ok r =>
    rw [hr] at h
    dsimp only at h
    unfold scanResult at h
    cases ht : r.data.toStringJs with
    | error m => rw [ht] at h; cases h
    | ok text =>
      rw [ht] at h
      by_cases h4 : (extractDatabaseEndpoints text).length ≤ env.maxArguments (.link i)
      · simp only [h4, if_true] at h
        exact isBareMatch_of_mem_extract _ _ h
      · simp only [h4, if_false] at h
        cases h

theorem foldl_pushLink (env : Env) :
    ∀ (anchors : List Element) (acc : List String),
      anchors.foldl (pushLink env) acc = acc ++ anchors.filterMap (acceptedHref env) := by
  intro anchors
  induction anchors with
  | nil => intro acc; simp
  | cons a rest ih =>
    intro acc
    rw [List.foldl_cons, ih, List.filterMap_cons]
    unfold pushLink acceptedHref
    cases attr a "href" with
    | none => rfl
    | some href =>
      by_cases hc : href ≠ "" ∧ env.isWebUri href = true
      · simp only [if_pos hc, List.append_assoc, List.singleton_append]
      · simp only [if_neg hc]

theorem crawlAndParse_of_seed_failed (env : Env) (bot : Bot) (e : String)
    (h : getServerInfo env bot = .error e ∨
      ((∃ info, getServerInfo env bot = .ok info) ∧ axiosGet env .seed bot.url = .error e)) :
    (crawlAndParse env bot).bot = bot ∧ (crawlAndParse env bot).linkPhase = [] ∧
    (crawlAndParse env bot).probePhase = [] ∧ (crawlAndParse env bot).outcome = .aborted ∧
    appended bot.errorLogFile (crawlAndParse env bot).seedStage =
      [errorEntry (env.now .seed) crawlContext e] := by
  rcases h with h | ⟨⟨info, h1⟩, h2⟩
  · simp [crawlAndParse, h, appended_handleRequestError]
  · simp only [crawlAndParse, h1, h2, appended_append, appended_handleRequestError]
    simp [appended]

theorem length_filterMap_failureReport (env : Env) (l : List (Nat × String)) :
    (l.filterMap (fun kl => failureReport env kl.1 kl.2)).length =
      (l.filter (fun kl => !(linkResult env kl.1 kl.2).isOk)).length := by
  induction l with
  | nil => rfl
  | cons a rest ih =>
    rw [List.filterMap_cons, List.filter_cons]
    cases h : linkResult env a.1 a.2 with
    | error e =>
      have hr : failureReport env a.1 a.2 =
          some (errorEntry (env.now (.link a.1)) (linkContext a.1) e) := by
        unfold failureReport; rw [h]
      rw [hr]
      simp only [Except.isOk, Except.toBool, Bool.not_false, if_true, List.length_cons, ih]
    | ok r =>
      have hr : failureReport env a.1 a.2 = none := by
        unfold failureReport; rw [h]
      rw [hr]
      simp only [Except.isOk, Except.toBool, Bool.not_true, Bool.false_eq_true, if_false, ih]

theorem linkReport_of_completes (env : Env) (i : Nat) (link : String)
    (h : completes env i link = true) : linkReport env i link = failureReport env i link := by
  unfold completes at h
  unfold linkReport failureReport tryResult
  cases hr : linkResult env i link with
  | error e => rfl
  | ok r =>
    rw [hr] at h
    dsimp only at h ⊢
    cases hs : scanResult env i r with
    | error e => rw [hs] at h; simp [Except.isOk, Except.toBool] at h
    | ok pushed => rfl

theorem filterMap_linkReport_of_completes (env : Env) (l : List (Nat × String))
    (h : ∀ kl ∈ l, completes env kl.1 kl.2 = true) :
    l.filterMap (fun kl => linkReport env kl.1 kl.2) =
      l.filterMap (fun kl => failureReport env kl.1 kl.2) := by
  induction l with
  | nil => rfl
  | cons a rest ih =>
    rw [List.filterMap_cons, List.filterMap_cons,
      linkReport_of_completes env a.1 a.2 (h a (List.mem_cons_self _ _)),
      ih (fun kl hkl => h kl (List.mem_cons_of_mem _ hkl))]

theorem constructor_fresh (env : Env) (url : String) (bot : Bot)
    (h : constructor env url = some bot) :
    bot.databaseEndpoints = [] ∧ bot.url = url ∧ env.isWebUri url = true := by
  unfold constructor validateUrl at h
  by_cases hv : env.isWebUri url = true
  · rw [if_pos hv] at h
    have := Option.some.inj h
    subst this
    exact ⟨rfl, rfl, hv⟩
  · rw [if_neg hv] at h; cases h

theorem crawlAndParse_cases (env : Env) (bot : Bot) :
    ((crawlAndParse env bot).bot = bot ∧ (crawlAndParse env bot).linkPhase = [] ∧
      (crawlAndParse env bot).probePhase = [] ∧ (crawlAndParse env bot).outcome = .aborted) ∨
    (∃ links, (crawlAndParse env bot).bot = (linkLoop env links 0 bot).1 ∧
      (crawlAndParse env bot).linkPhase = (linkLoop env links 0 bot).2 ∧
      (crawlAndParse env bot).probePhase = inspectDatabase env (linkLoop env links 0 bot).1 ∧
      (crawlAndParse env bot).outcome = .done) := by
  unfold crawlAndParse
  cases getServerInfo env bot with
  | error e => exact Or.inl ⟨rfl, rfl, rfl, rfl⟩
  | ok info =>
    cases axiosGet env .seed bot.url with
    | error e => exact Or.inl ⟨rfl, rfl, rfl, rfl⟩
    | ok r =>
      cases h : env.load r.data with
      | error e => exact Or.inl (by simp [h])
      | ok doc => exact Or.inr ⟨extractLinks env doc, by simp [h]⟩

theorem appended_saveToJson (env : Env) (file : String) (data : List ElementRecord) :
    appended file (saveToJson env data) = [] := by
  unfold saveToJson
  cases env.writeFileErr <;> simp [appended, delay]

theorem consoleErrors_saveToJson (env : Env) (data : List ElementRecord)
    (h : env.writeFileErr = none) : consoleErrors (saveToJson env data) = [] := by
  unfold saveToJson
  rw [h]; rfl

theorem length_errorEntry (timestamp message errorMessage : String) :
    (errorEntry timestamp message errorMessage).length =
      (consoleLine message errorMessage ++ "\n").length + timestamp.length + 3 := by
  unfold errorEntry consoleLine
  simp only [String.length_append]
  have h1 : "[".length = 1 := by decide
  have h2 : "] ".length = 2 := by decide
  have h3 : ": ".length = 2 := by decide
  have h4 : "\n".length = 1 := by decide
  omega

/-- A successful response with more matches than the engine accepts as arguments: the
spread call of line 96 throws, nothing is stored and the link is reported. -/
theorem processLink_of_spread_overflow (env : Env) (bot : Bot) (k : Nat) (link : String)
    (response : Response) (text : String)
    (hr : linkResult env k link = .ok response)
    (ht : response.data.toStringJs = .ok text)
    (hmany : env.maxArguments (.link k) < (extractDatabaseEndpoints text).length) :
    (processLink env bot k link).1 = bot ∧
    appended bot.errorLogFile (processLink env bot k link).2 =
      [errorEntry (env.now (.link k)) (linkContext k) "Maximum call stack size exceeded"] := by
  have hnot : ¬ (extractDatabaseEndpoints text).length ≤ env.maxArguments (.link k) := by omega
  have htry : tryResult env k link = .error "Maximum call stack size exceeded" := by
    unfold tryResult; rw [hr]
    dsimp only
    unfold scanResult; rw [ht]
    simp only [hnot, if_false]
  refine ⟨?_, ?_⟩
  · rw [processLink_bot, linkEndpoints, htry]
    simp
  · rw [processLink_appended, linkReport, htry]; rfl

/-! ## The claims -/

/-- Claim C1, as stated, fails: a link accepted by the validator on which the `URL`
constructor throws (a port above 65535) is reported and skipped, no `axios.get` is issued
for it, so the fetch attempts of the link loop are not the extracted link list. -/
theorem unparsable_link_is_not_fetched :
    getServerInfo bigPortEnv sampleBot = .ok { serverName := "seed.test", ipAddress := "192.0.2.1" } ∧
    axiosGet bigPortEnv .seed sampleBot.url = .ok { status := 200, data := .string seedBody } ∧
    bigPortEnv.load (.string seedBody) = .ok bigPortDoc ∧
    extractLinks bigPortEnv bigPortDoc = ["http://a.test:99999999/"] ∧
    fetchedUrls (crawlAndParse bigPortEnv sampleBot).linkPhase = [] ∧
    ¬ (fetchedUrls (crawlAndParse bigPortEnv sampleBot).linkPhase =
        extractLinks bigPortEnv bigPortDoc) ∧
    (crawlAndParse bigPortEnv sampleBot).outcome = .done := by
  decide

/-- Claim C1, amended: once the seed stage has succeeded, whatever URL constructions and
fetches fail, the link loop runs its body once for every extracted link, in extraction
order, and closes each iteration with one delay; the fetch attempts are the extracted
links that the `URL` constructor accepts, in extraction order, hence the whole list when
it accepts every link; afterwards the run proceeds to `inspectDatabase` and ends `done`. -/
theorem link_loop_attempts_in_order (env : Env) (bot : Bot) (serverInfo : ServerInfo)
    (initialResponse : Response) (doc : Doc)
    (h1 : getServerInfo env bot = .ok serverInfo)
    (h2 : axiosGet env .seed bot.url = .ok initialResponse)
    (h3 : env.load initialResponse.data = .ok doc) :
    (crawlAndParse env bot).linkPhase =
      ((extractLinks env doc).enumFrom 0).flatMap
        (fun kl => (processLink env bot kl.1 kl.2).2) ∧
    delays (crawlAndParse env bot).linkPhase =
      List.replicate (extractLinks env doc).length bot.delayBetweenRequests ∧
    fetchedUrls (crawlAndParse env bot).linkPhase =
      (extractLinks env doc).filter (fun link => (env.newURL link).isOk) ∧
    ((∀ link ∈ extractLinks env doc, (env.newURL link).isOk = true) →
      fetchedUrls (crawlAndParse env bot).linkPhase = extractLinks env doc) ∧
    (crawlAndParse env bot).probePhase = inspectDatabase env (crawlAndParse env bot).bot ∧
    (crawlAndParse env bot).outcome = .done := by
  rcases crawlAndParse_of_seed_ok env bot serverInfo initialResponse doc h1 h2 h3 with
    ⟨ho, hb, hl, hp, -⟩
  have hf := linkLoop_fetched env (extractLinks env doc) 0 bot
  refine ⟨?_, ?_, ?_, ?_, ?_, ho⟩
  · rw [hl, linkLoop_effects]
  · rw [hl, linkLoop_delays]
  · rw [hl, hf]
  · intro hall
    rw [hl, hf]
    exact List.filter_eq_self.2 hall
  · rw [hp, hb]

/-- The amended claim C1 on the sample world: three links, the fetch of the second one
fails, all three are attempted in order and the run ends `done`. -/
theorem link_loop_attempts_in_order_witness :
    getServerInfo sampleEnv sampleBot = .ok { serverName := "seed.test", ipAddress := "192.0.2.1" } ∧
    axiosGet sampleEnv .seed sampleBot.url = .ok { status := 200, data := .string seedBody } ∧
    sampleEnv.load (.string seedBody) = .ok threeLinkDoc ∧
    (∀ link ∈ extractLinks sampleEnv threeLinkDoc, (sampleEnv.newURL link).isOk = true) ∧
    fetchedUrls (crawlAndParse sampleEnv sampleBot).linkPhase =
      ["https://a.test/1", "https://b.test/2", "https://c.test/3"] ∧
    (crawlAndParse sampleEnv sampleBot).outcome = .done := by
  have h := link_loop_attempts_in_order sampleEnv sampleBot
    { serverName := "seed.test", ipAddress := "192.0.2.1" }
    { status := 200, data := .string seedBody } threeLinkDoc (by decide) (by decide) (by decide)
  have hall : ∀ link ∈ extractLinks sampleEnv threeLinkDoc,
      (sampleEnv.newURL link).isOk = true := by decide
  exact ⟨by decide, by decide, by decide, hall, (h.2.2.2.1 hall).trans (by decide), h.2.2.2.2.2⟩

/-- Claim C2, as stated, fails: the only link of the page is rejected by the `URL`
constructor, so no fetch is issued and no fetch fails, and yet `handleRequestError` is
called for it; the number of error reports is 1 and the number of links whose fetch fails
is 0. -/
theorem report_without_failed_fetch :
    getServerInfo bigPortEnv sampleBot = .ok { serverName := "seed.test", ipAddress := "192.0.2.1" } ∧
    axiosGet bigPortEnv .seed sampleBot.url = .ok { status := 200, data := .string seedBody } ∧
    bigPortEnv.load (.string seedBody) = .ok bigPortDoc ∧
    extractLinks bigPortEnv bigPortDoc = ["http://a.test:99999999/"] ∧
    fetchedUrls (crawlAndParse bigPortEnv sampleBot).linkPhase = [] ∧
    ((extractLinks bigPortEnv bigPortDoc).enumFrom 0).filter
      (fun kl => fetchFails bigPortEnv kl.1 kl.2) = [] ∧
    appended sampleBot.errorLogFile (crawlAndParse bigPortEnv sampleBot).linkPhase =
      ["[2024-01-01T00:00:00.000Z] Error processing link #1: Invalid URL\n"] ∧
    (appended sampleBot.errorLogFile (crawlAndParse bigPortEnv sampleBot).linkPhase).length ≠
      (((extractLinks bigPortEnv bigPortDoc).enumFrom 0).filter
        (fun kl => fetchFails bigPortEnv kl.1 kl.2)).length := by
  decide

/-- Claim C2, amended: in the link loop of `crawlAndParse`, `handleRequestError` is called
exactly once for a link whose URL construction (`new URL(link)`) fails and exactly once
for a link whose fetch fails, the report for the link at 0-based index `k` carrying the
context `Error processing link #(k+1)`, and it is not called for a link whose `try` body
runs to its end.  When the processing after every successful fetch runs to its end, the
error-log lines of the phase are, in link order, one line per link whose URL construction
or fetch fails, so their number is the number of those links. -/
theorem link_failures_reported_once (env : Env) (bot : Bot) (serverInfo : ServerInfo)
    (initialResponse : Response) (doc : Doc)
    (h1 : getServerInfo env bot = .ok serverInfo)
    (h2 : axiosGet env .seed bot.url = .ok initialResponse)
    (h3 : env.load initialResponse.data = .ok doc) :
    (∀ k link e, env.newURL link = .error e →
      appended bot.errorLogFile (processLink env bot k link).2 =
        ["[" ++ env.now (.link k) ++ "] " ++
          ("Error processing link #" ++ toString (k + 1)) ++ ": " ++ e ++ "\n"]) ∧
    (∀ k link u e, env.newURL link = .ok u → axiosGet env (.link k) link = .error e →
      appended bot.errorLogFile (processLink env bot k link).2 =
        ["[" ++ env.now (.link k) ++ "] " ++
          ("Error processing link #" ++ toString (k + 1)) ++ ": " ++ e ++ "\n"]) ∧
    (∀ k link response pushed, linkResult env k link = .ok response →
      scanResult env k response = .ok pushed →
      appended bot.errorLogFile (processLink env bot k link).2 = []) ∧
    ((∀ kl ∈ (extractLinks env doc).enumFrom 0, completes env kl.1 kl.2 = true) →
      appended bot.errorLogFile (crawlAndParse env bot).linkPhase =
        ((extractLinks env doc).enumFrom 0).filterMap (fun kl =>
          match linkResult env kl.1 kl.2 with
          | .ok _ => none
          | .error e =>
            some ("[" ++ env.now (.link kl.1) ++ "] " ++
              ("Error processing link #" ++ toString (kl.1 + 1)) ++ ": " ++ e ++ "\n")) ∧
      (appended bot.errorLogFile (crawlAndParse env bot).linkPhase).length =
        (((extractLinks env doc).enumFrom 0).filter
          (fun kl => !(linkResult env kl.1 kl.2).isOk)).length) := by
  rcases crawlAndParse_of_seed_ok env bot serverInfo initialResponse doc h1 h2 h3 with
    ⟨-, -, hl, -, -⟩
  have ha := linkLoop_appended env (extractLinks env doc) 0 bot
  refine ⟨?_, ?_, ?_, ?_⟩
  · intro k link e hu
    have hr : tryResult env k link = .error e := by
      unfold tryResult linkResult; rw [hu]
    rw [processLink_appended, linkReport, hr]; rfl
  · intro k link u e hu hg
    have hr : tryResult env k link = .error e := by
      unfold tryResult linkResult; rw [hu]; dsimp only; rw [hg]
    rw [processLink_appended, linkReport, hr]; rfl
  · intro k link response pushed hr hs
    have ht : tryResult env k link = .ok pushed := by
      unfold tryResult; rw [hr]; exact hs
    rw [processLink_appended, linkReport, ht]; rfl
  · intro hall
    have heq := filterMap_linkReport_of_completes env _ hall
    refine ⟨?_, ?_⟩
    · rw [hl, ha, heq]; rfl
    · rw [hl, ha, heq]; exact length_filterMap_failureReport env _

/-- The amended claim C2 on the sample world: of three links only the second fails, the
processing of the other two runs to its end, and the error log of the link phase holds
exactly one line, for link #2. -/
theorem link_failures_reported_once_witness :
    getServerInfo sampleEnv sampleBot = .ok { serverName := "seed.test", ipAddress := "192.0.2.1" } ∧
    axiosGet sampleEnv .seed sampleBot.url = .ok { status := 200, data := .string seedBody } ∧
    sampleEnv.load (.string seedBody) = .ok threeLinkDoc ∧
    (∀ kl ∈ (extractLinks sampleEnv threeLinkDoc).enumFrom 0,
      completes sampleEnv kl.1 kl.2 = true) ∧
    appended sampleBot.errorLogFile (crawlAndParse sampleEnv sampleBot).linkPhase =
      ["[2024-01-01T00:00:00.000Z] Error processing link #2: Request failed with status code 500\n"] := by
  have h := link_failures_reported_once sampleEnv sampleBot
    { serverName := "seed.test", ipAddress := "192.0.2.1" }
    { status := 200, data := .string seedBody } threeLinkDoc (by decide) (by decide) (by decide)
  have hall : ∀ kl ∈ (extractLinks sampleEnv threeLinkDoc).enumFrom 0,
      completes sampleEnv kl.1 kl.2 = true := by decide
  exact ⟨by decide, by decide, by decide, hall, (h.2.2.2 hall).1.trans (by decide)⟩

/-- Claim C3, as stated, fails: with a forward record and a failing reverse lookup
`getServerInfo` rejects with the error of the reverse lookup (line 122); it does not
return the `N/A` record. -/
theorem getServerInfo_rejects_on_reverse_failure :
    noReverseEnv.newURL sampleBot.url =
      .ok { protocol := "https:", hostname := "seed.test", port := "" } ∧
    noReverseEnv.dnsLookup "seed.test" = .ok "192.0.2.1" ∧
    noReverseEnv.dnsReverse "192.0.2.1" = .error "getHostByAddr ENOTFOUND 192.0.2.1" ∧
    getServerInfo noReverseEnv sampleBot = .error "getHostByAddr ENOTFOUND 192.0.2.1" ∧
    getServerInfo noReverseEnv sampleBot ≠
      .ok { serverName := "N/A", ipAddress := "192.0.2.1" } := by
  decide

/-- Claim C3, amended: for a seed URL that parses, `getServerInfo` fails with the error of
the forward lookup when that fails, and with the error of the reverse lookup when the
forward lookup gives `ip` and the reverse lookup of `ip` fails; when the reverse lookup
succeeds it returns the first host name with `ip`, and `N/A` with `ip` when the reverse
lookup gives no name or an empty first name. -/
theorem getServerInfo_lookup_results (env : Env) (bot : Bot) (urlObject : ParsedURL)
    (hurl : env.newURL bot.url = .ok urlObject) :
    (∀ err, env.dnsLookup urlObject.hostname = .error err →
      getServerInfo env bot = .error err) ∧
    (∀ ip err, env.dnsLookup urlObject.hostname = .ok ip → env.dnsReverse ip = .error err →
      getServerInfo env bot = .error err) ∧
    (∀ ip name rest, env.dnsLookup urlObject.hostname = .ok ip →
      env.dnsReverse ip = .ok (name :: rest) → name ≠ "" →
      getServerInfo env bot = .ok { serverName := name, ipAddress := ip }) ∧
    (∀ ip hostnames, env.dnsLookup urlObject.hostname = .ok ip →
      env.dnsReverse ip = .ok hostnames → (hostnames = [] ∨ hostnames.head? = some "") →
      getServerInfo env bot = .ok { serverName := "N/A", ipAddress := ip }) := by
  refine ⟨?_, ?_, ?_, ?_⟩
  · intro err hf
    simp [getServerInfo, hurl, hf]
  · intro ip err hf hr
    simp [getServerInfo, hurl, hf, hr]
  · intro ip name rest hf hr hne
    simp [getServerInfo, hurl, hf, hr, hne]
  · intro ip hostnames hf hr hempty
    rcases hempty with rfl | hh
    · simp [getServerInfo, hurl, hf, hr]
    · simp [getServerInfo, hurl, hf, hr, hh]

/-- The amended claim C3 on sample worlds: a reverse lookup without a name gives `N/A`,
a failing one makes the call fail, and so does a failing forward lookup. -/
theorem getServerInfo_lookup_results_witness :
    emptyReverseEnv.newURL sampleBot.url =
      .ok { protocol := "https:", hostname := "seed.test", port := "" } ∧
    getServerInfo emptyReverseEnv sampleBot =
      .ok { serverName := "N/A", ipAddress := "192.0.2.1" } ∧
    getServerInfo noReverseEnv sampleBot = .error "getHostByAddr ENOTFOUND 192.0.2.1" ∧
    getServerInfo noForwardEnv sampleBot = .error "getaddrinfo ENOTFOUND seed.test" ∧
    getServerInfo sampleEnv sampleBot =
      .ok { serverName := "seed.test", ipAddress := "192.0.2.1" } :=
  ⟨by decide,
   (getServerInfo_lookup_results emptyReverseEnv sampleBot
      { protocol := "https:", hostname := "seed.test", port := "" } (by decide)).2.2.2
      "192.0.2.1" [] (by decide) (by decide) (Or.inl rfl),
   (getServerInfo_lookup_results noReverseEnv sampleBot
      { protocol := "https:", hostname := "seed.test", port := "" } (by decide)).2.1
      "192.0.2.1" _ (by decide) (by decide),
   (getServerInfo_lookup_results noForwardEnv sampleBot
      { protocol := "https:", hostname := "seed.test", port := "" } (by decide)).1
      _ (by decide),
   (getServerInfo_lookup_results sampleEnv sampleBot
      { protocol := "https:", hostname := "seed.test", port := "" } (by decide)).2.2.1
      "192.0.2.1" "seed.test" [] (by decide) (by decide) (by decide)⟩

/-- Claim C4: for every text `s` the scan of `extractDatabaseEndpoints` comes to its end
(within `length + 1` calls of `exec`) and returns the matched substrings, with the casing
they have in `s`, of the leftmost non-overlapping case-insensitive occurrences of
`/database/`, in order of occurrence; the list of these positions is unique.  A text
without occurrence gives the empty list, and the example of the specification gives
`["/database/", "/Database/"]`. -/
theorem extractDatabaseEndpoints_leftmost_matches (s : String) :
    ∃ ps : List Nat,
      LeftmostOccurrences s.data 0 ps ∧
      (∀ ps', LeftmostOccurrences s.data 0 ps' → ps' = ps) ∧
      scanLoop s.data (s.data.length + 1) 0 [] = some (extractDatabaseEndpoints s) ∧
      extractDatabaseEndpoints s = ps.map (matchedText s.data) ∧
      ((∀ q, ¬ occursAt s.data q) → extractDatabaseEndpoints s = []) ∧
      extractDatabaseEndpoints "see /database/users and /Database/logs" =
        ["/database/", "/Database/"] ∧
      extractDatabaseEndpoints "no endpoint in /data/base/ here" = [] := by
  rcases extractDatabaseEndpoints_spec s with ⟨ps, h1, h2, h3⟩
  refine ⟨ps, h1, ?_, ?_, h3, ?_, by decide, by decide⟩
  · intro ps' h'
    exact leftmostOccurrences_unique _ _ _ _ h' h1
  · rw [h2, h3]
  · intro hnone
    have hnil : LeftmostOccurrences s.data 0 [] := fun q _ => hnone q
    have := leftmostOccurrences_unique _ _ _ _ hnil h1
    rw [h3, ← this]; rfl

/-- Claim C4 on a text without occurrence: the scan returns the empty list. -/
theorem extractDatabaseEndpoints_leftmost_matches_witness :
    (∀ q, ¬ occursAt "<p>no endpoint</p>".data q) ∧
    extractDatabaseEndpoints "<p>no endpoint</p>" = [] := by
  have hno : ∀ q, ¬ occursAt "<p>no endpoint</p>".data q := by
    intro q h
    have hlen := occursAt_length _ _ h
    have hq : q < 9 := by
      have : "<p>no endpoint</p>".data.length = 18 := by decide
      omega
    revert h
    interval_cases q <;> decide
  rcases extractDatabaseEndpoints_leftmost_matches "<p>no endpoint</p>" with
    ⟨ps, -, -, -, -, h, -, -⟩
  exact ⟨hno, h hno⟩

/-- Claim C5 does not hold on the code, against the comment of line 94 (`Check if the
response body contains potential database endpoints`): the only link of the seed page
answers 200 with the JSON text of an object that names `/database/users`; axios hands the
parsed object to the code, the regular expression scans `[object Object]`, and although
the fetch succeeded and the body contains one match, nothing is stored, nothing is
reported and nothing is probed. -/
theorem json_body_matches_are_not_stored :
    constructor jsonEnv "https://seed.test/" = some sampleBot ∧
    getServerInfo jsonEnv sampleBot = .ok { serverName := "seed.test", ipAddress := "192.0.2.1" } ∧
    axiosGet jsonEnv .seed sampleBot.url = .ok { status := 200, data := .string seedBody } ∧
    jsonEnv.load (.string seedBody) = .ok oneLinkDoc ∧
    extractLinks jsonEnv oneLinkDoc = ["https://a.test/1"] ∧
    jsonEnv.network (.link 0) "https://a.test/1" = .ok { status := 200, body := jsonBody } ∧
    linkResult jsonEnv 0 "https://a.test/1" =
      .ok { status := 200,
            data := .object (.cons "next" (.string "/database/users") .nil) } ∧
    Json.toStringJs (.object (.cons "next" (.string "/database/users") .nil)) =
      .ok "[object Object]" ∧
    extractDatabaseEndpoints jsonBody = ["/database/"] ∧
    (crawlAndParse jsonEnv sampleBot).bot.databaseEndpoints = [] ∧
    appended sampleBot.errorLogFile (crawlAndParse jsonEnv sampleBot).linkPhase = [] ∧
    (crawlAndParse jsonEnv sampleBot).probePhase = [] ∧
    (crawlAndParse jsonEnv sampleBot).outcome = .done := by
  decide

/-- Claim C6: a failure of `getServerInfo` or of the seed fetch ends the run at once: no
link is fetched, no endpoint is probed, the bot with its `databaseEndpoints` is left as it
was, and exactly one error is reported, with the context
`Error during the crawling and parsing process`.  When server resolution, the seed fetch
and the parsing of the seed body succeed, the run ends `done` with every stored endpoint
probed, whatever link fetches and endpoint probes fail. -/
theorem seed_failures_are_fatal (env : Env) (bot : Bot) :
    (∀ e, (getServerInfo env bot = .error e ∨
        ((∃ info, getServerInfo env bot = .ok info) ∧ axiosGet env .seed bot.url = .error e)) →
      (crawlAndParse env bot).linkPhase = [] ∧
      (crawlAndParse env bot).probePhase = [] ∧
      (crawlAndParse env bot).bot = bot ∧
      appended bot.errorLogFile (crawlAndParse env bot).trace =
        ["[" ++ env.now .seed ++ "] " ++ "Error during the crawling and parsing process" ++
          ": " ++ e ++ "\n"] ∧
      (crawlAndParse env bot).outcome = .aborted) ∧
    (∀ serverInfo initialResponse doc, getServerInfo env bot = .ok serverInfo →
      axiosGet env .seed bot.url = .ok initialResponse →
      env.load initialResponse.data = .ok doc →
      (crawlAndParse env bot).outcome = .done ∧
      (crawlAndParse env bot).probePhase = inspectDatabase env (crawlAndParse env bot).bot ∧
      fetchedUrls (crawlAndParse env bot).probePhase =
        (crawlAndParse env bot).bot.databaseEndpoints) := by
  constructor
  · intro e h
    rcases crawlAndParse_of_seed_failed env bot e h with ⟨hb, hl, hp, ho, ha⟩
    refine ⟨hl, hp, hb, ?_, ho⟩
    unfold RunResult.trace
    rw [hl, hp, List.append_nil, List.append_nil, ha]
    rfl
  · intro serverInfo initialResponse doc h1 h2 h3
    rcases crawlAndParse_of_seed_ok env bot serverInfo initialResponse doc h1 h2 h3 with
      ⟨ho, hb, -, hp, -⟩
    refine ⟨ho, by rw [hp, hb], ?_⟩
    rw [hp, hb]; exact probeLoop_fetched env _ _ 0

/-- Claim C6 on sample worlds: a failing forward lookup and a failing seed fetch each
abort the run with one report, and the world in which a link fetch and all probes fail
still ends `done`. -/
theorem seed_failures_are_fatal_witness :
    getServerInfo noForwardEnv sampleBot = .error "getaddrinfo ENOTFOUND seed.test" ∧
    crawlAndParse noForwardEnv sampleBot =
      { bot := sampleBot
        seedStage :=
          [Effect.appendFile "web_bot_error_log.txt"
             "[2024-01-01T00:00:00.000Z] Error during the crawling and parsing process: getaddrinfo ENOTFOUND seed.test\n",
           Effect.consoleError
             "Error during the crawling and parsing process: getaddrinfo ENOTFOUND seed.test"]
        linkPhase := []
        probePhase := []
        outcome := .aborted } ∧
    axiosGet seedDownEnv .seed sampleBot.url = .error "socket hang up" ∧
    appended sampleBot.errorLogFile (crawlAndParse seedDownEnv sampleBot).trace =
      ["[2024-01-01T00:00:00.000Z] Error during the crawling and parsing process: socket hang up\n"] ∧
    (crawlAndParse seedDownEnv sampleBot).outcome = .aborted ∧
    (crawlAndParse sampleEnv sampleBot).outcome = .done := by
  have hB := (seed_failures_are_fatal seedDownEnv sampleBot).1
    "socket hang up"
    (Or.inr ⟨⟨{ serverName := "seed.test", ipAddress := "192.0.2.1" }, by decide⟩, by decide⟩)
  have hC := (seed_failures_are_fatal sampleEnv sampleBot).2
    { serverName := "seed.test", ipAddress := "192.0.2.1" }
    { status := 200, data := .string seedBody } threeLinkDoc (by decide) (by decide) (by decide)
  exact ⟨by decide, by decide, by decide, hB.2.2.2.1.trans (by decide), hB.2.2.2.2, hC.1⟩

/-- Claim C7: for a bot built by the constructor whose seed stage succeeds on a page with
no extracted link, the link loop does nothing, `databaseEndpoints` ends empty,
`inspectDatabase` issues no fetch, `handleRequestError` is never called (nothing is
appended to an error log, and nothing is written with `console.error` when the JSON file
is written without error), the only request of the run is the seed fetch, and the run
ends `done`. -/
theorem no_links_run_completes (env : Env) (url : String) (bot : Bot)
    (serverInfo : ServerInfo) (initialResponse : Response) (doc : Doc)
    (hfresh : constructor env url = some bot)
    (h1 : getServerInfo env bot = .ok serverInfo)
    (h2 : axiosGet env .seed bot.url = .ok initialResponse)
    (h3 : env.load initialResponse.data = .ok doc)
    (hnone : extractLinks env doc = []) :
    (crawlAndParse env bot).linkPhase = [] ∧
    (crawlAndParse env bot).bot.databaseEndpoints = [] ∧
    (crawlAndParse env bot).probePhase = [] ∧
    (∀ file, appended file (crawlAndParse env bot).trace = []) ∧
    (env.writeFileErr = none → consoleErrors (crawlAndParse env bot).trace = []) ∧
    fetchedUrls (crawlAndParse env bot).trace = [url] ∧
    (crawlAndParse env bot).outcome = .done := by
  rcases crawlAndParse_of_seed_ok env bot serverInfo initialResponse doc h1 h2 h3 with
    ⟨ho, hb, hl, hp, hs⟩
  rcases constructor_fresh env url bot hfresh with ⟨hempty, hurl, -⟩
  rw [hnone] at hb hl hp
  have hb' : (crawlAndParse env bot).bot = bot := hb
  have hl' : (crawlAndParse env bot).linkPhase = [] := hl
  have hp' : (crawlAndParse env bot).probePhase = [] := by
    rw [hp]
    show probeLoop env bot bot.databaseEndpoints 0 = []
    rw [hempty]; rfl
  refine ⟨hl', by rw [hb', hempty], hp', ?_, ?_, ?_, ho⟩
  · intro file
    unfold RunResult.trace
    rw [hl', hp', hs, List.append_nil, List.append_nil, appended_append,
      appended_saveToJson, List.append_nil]
    rfl
  · intro hw
    unfold RunResult.trace
    rw [hl', hp', hs, List.append_nil, List.append_nil, consoleErrors_append,
      consoleErrors_saveToJson env _ hw, List.append_nil]
    rfl
  · unfold RunResult.trace
    rw [hl', hp', hs, List.append_nil, List.append_nil, fetchedUrls_append, hurl]
    unfold saveToJson
    cases env.writeFileErr <;> rfl

/-- Claim C7 on the sample world whose seed page has no anchor. -/
theorem no_links_run_completes_witness :
    constructor noLinkEnv "https://seed.test/" = some sampleBot ∧
    getServerInfo noLinkEnv sampleBot = .ok { serverName := "seed.test", ipAddress := "192.0.2.1" } ∧
    axiosGet noLinkEnv .seed sampleBot.url = .ok { status := 200, data := .string seedBody } ∧
    noLinkEnv.load (.string seedBody) = .ok noLinkDoc ∧
    extractLinks noLinkEnv noLinkDoc = [] ∧
    (crawlAndParse noLinkEnv sampleBot).linkPhase = [] ∧
    (crawlAndParse noLinkEnv sampleBot).bot.databaseEndpoints = [] ∧
    (crawlAndParse noLinkEnv sampleBot).probePhase = [] ∧
    consoleErrors (crawlAndParse noLinkEnv sampleBot).trace = [] ∧
    (crawlAndParse noLinkEnv sampleBot).outcome = .done := by
  have h := no_links_run_completes noLinkEnv "https://seed.test/" sampleBot
    { serverName := "seed.test", ipAddress := "192.0.2.1" }
    { status := 200, data := .string seedBody } noLinkDoc
    (by decide) (by decide) (by decide) (by decide) (by decide)
  exact ⟨by decide, by decide, by decide, by decide, by decide, h.1, h.2.1, h.2.2.1,
    h.2.2.2.2.1 rfl, h.2.2.2.2.2.2⟩

/-- Claim C8, as stated, fails: the console line of `handleRequestError` has no
timestamp, so it differs from the line appended to the log even without the newline. -/
theorem console_line_differs_from_log_line :
    handleRequestError sampleEnv sampleBot .seed "Error processing link #1" "timeout" =
      [Effect.appendFile "web_bot_error_log.txt"
         "[2024-01-01T00:00:00.000Z] Error processing link #1: timeout\n",
       Effect.consoleError "Error processing link #1: timeout"] ∧
    "Error processing link #1: timeout" ++ "\n" ≠
      "[2024-01-01T00:00:00.000Z] Error processing link #1: timeout\n" := by
  decide

/-- Claim C8, amended: for every context and error message `handleRequestError` appends
`[<timestamp>] <context>: <message>` and a newline to the error log and writes
`<context>: <message>`, without the timestamp, to the console; the appended text is
`[<timestamp>] `, then the console text, then a newline, and so never equals the console
text followed by a newline.  The only further effect is the console line of a failed
append. -/
theorem handleRequestError_log_and_console (env : Env) (bot : Bot) (site : CallSite)
    (message errorMessage : String) :
    (∃ callback,
      handleRequestError env bot site message errorMessage =
        [Effect.appendFile bot.errorLogFile
           ("[" ++ env.now site ++ "] " ++ message ++ ": " ++ errorMessage ++ "\n"),
         Effect.consoleError (message ++ ": " ++ errorMessage)] ++ callback ∧
      ((env.appendFileErr site = none ∧ callback = []) ∨
        ∃ m, env.appendFileErr site = some m ∧
          callback = [Effect.consoleError ("Error writing to error log file: " ++ m)])) ∧
    "[" ++ env.now site ++ "] " ++ message ++ ": " ++ errorMessage ++ "\n" =
      "[" ++ env.now site ++ "] " ++ (message ++ ": " ++ errorMessage) ++ "\n" ∧
    "[" ++ env.now site ++ "] " ++ message ++ ": " ++ errorMessage ++ "\n" ≠
      (message ++ ": " ++ errorMessage) ++ "\n" := by
  refine ⟨?_, ?_, ?_⟩
  · unfold handleRequestError errorEntry consoleLine
    cases h : env.appendFileErr site with
    | none => exact ⟨[], rfl, Or.inl ⟨rfl, rfl⟩⟩
    | some m => exact ⟨_, rfl, Or.inr ⟨m, rfl, rfl⟩⟩
  · simp only [String.append_assoc]
  · intro h
    have hlen := length_errorEntry (env.now site) message errorMessage
    unfold errorEntry consoleLine at hlen
    rw [h] at hlen
    omega

/-- Claim C9: the link list built in `crawlAndParse` is the sequence of `href` values of
the anchors of the seed document, in document order, restricted to the values that are
present, non-empty and accepted by the web-URI validator.  Every other anchor adds
nothing, a kept value is the `href` as written, and nothing is removed afterwards: the
links of two documents put one after the other are the links of the first followed by
those of the second, so a repeated `href` is kept.  With a validator that accepts
`https://a.test/1` and rejects `/rel`, the example of the specification gives exactly
`["https://a.test/1"]`. -/
theorem extractLinks_filters_anchor_hrefs (env : Env) (doc : Doc) :
    extractLinks env doc =
      (doc.filter (fun element => element.name == "a")).filterMap (fun element =>
        match element.attribs.lookup "href" with
        | some href => if href ≠ "" ∧ env.isWebUri href = true then some href else none
        | none => none) ∧
    (∀ link, link ∈ extractLinks env doc ↔
      ∃ element ∈ doc, element.name = "a" ∧ element.attribs.lookup "href" = some link ∧
        link ≠ "" ∧ env.isWebUri link = true) ∧
    (∀ href, href = "" ∨ env.isWebUri href = false → href ∉ extractLinks env doc) ∧
    (∀ doc', extractLinks env (doc ++ doc') = extractLinks env doc ++ extractLinks env doc') ∧
    (env.isWebUri "https://a.test/1" = true → env.isWebUri "/rel" = false →
      extractLinks env mixedDoc = ["https://a.test/1"]) := by
  have heq : ∀ d : Doc, extractLinks env d = (selectAnchors d).filterMap (acceptedHref env) := by
    intro d
    unfold extractLinks
    rw [foldl_pushLink, List.nil_append]
  have hmem : ∀ link, link ∈ extractLinks env doc ↔
      ∃ element ∈ doc, element.name = "a" ∧ element.attribs.lookup "href" = some link ∧
        link ≠ "" ∧ env.isWebUri link = true := by
    intro link
    rw [heq, List.mem_filterMap]
    constructor
    · rintro ⟨element, hmem, hacc⟩
      unfold selectAnchors at hmem
      rcases List.mem_filter.1 hmem with ⟨hd, hname⟩
      unfold acceptedHref attr at hacc
      cases hl : element.attribs.lookup "href" with
      | none => rw [hl] at hacc; cases hacc
      | some href =>
        rw [hl] at hacc
        by_cases hc : href ≠ "" ∧ env.isWebUri href = true
        · simp only [if_pos hc] at hacc
          have := Option.some.inj hacc
          subst this
          exact ⟨element, hd, by simpa using hname, hl, hc.1, hc.2⟩
        · simp only [if_neg hc] at hacc
          cases hacc
    · rintro ⟨element, hd, hname, hl, hne, hv⟩
      refine ⟨element, ?_, ?_⟩
      · unfold selectAnchors
        exact List.mem_filter.2 ⟨hd, by simpa using hname⟩
      · unfold acceptedHref attr
        rw [hl]
        exact if_pos ⟨hne, hv⟩
  refine ⟨?_, hmem, ?_, ?_, ?_⟩
  · rw [heq]; rfl
  · intro href hbad hin
    rcases (hmem href).1 hin with ⟨-, -, -, -, hne, hv⟩
    rcases hbad with h | h
    · exact hne h
    · rw [hv] at h; cases h
  · intro doc'
    rw [heq, heq, heq]
    unfold selectAnchors
    rw [List.filter_append, List.filterMap_append]
  · intro habs hrel
    rw [heq]
    simp [selectAnchors, mixedDoc, acceptedHref, attr, habs, hrel, List.lookup]

/-- Claim C9 on the sample world: the example document gives the single absolute link,
and a page that repeats an anchor keeps both copies. -/
theorem extractLinks_filters_anchor_hrefs_witness :
    sampleEnv.isWebUri "https://a.test/1" = true ∧ sampleEnv.isWebUri "/rel" = false ∧
    extractLinks sampleEnv mixedDoc = ["https://a.test/1"] ∧
    extractLinks sampleEnv (mixedDoc ++ mixedDoc) = ["https://a.test/1", "https://a.test/1"] :=
  ⟨by decide, by decide,
   (extractLinks_filters_anchor_hrefs sampleEnv mixedDoc).2.2.2.2 (by decide) (by decide),
   by decide⟩

/-- Claim C10: every string that a run adds to `databaseEndpoints` has length 10, is
`/database/` once lower-cased and starts with `/` (so it carries no scheme or host and is
only the matched text, never the URL or path around it); for a bot that starts with an
empty list this holds for the whole list and for every URL that `inspectDatabase` passes
to `axios.get`.  A body with a full URL around the match stores the bare `/database/`. -/
theorem stored_endpoints_are_bare_matches (env : Env) (bot : Bot) :
    (∃ added, (crawlAndParse env bot).bot.databaseEndpoints = bot.databaseEndpoints ++ added ∧
      ∀ e ∈ added, e.length = 10 ∧ e.toLower = "/database/" ∧ e.data.head? = some '/') ∧
    (bot.databaseEndpoints = [] →
      (∀ e ∈ (crawlAndParse env bot).bot.databaseEndpoints, IsBareMatch e) ∧
      ∀ u ∈ fetchedUrls (crawlAndParse env bot).probePhase, IsBareMatch u) ∧
    extractDatabaseEndpoints "<a href=\"https://h.test/Database/users?id=1\">users</a>" =
      ["/Database/"] := by
  have hadded : ∃ added,
      (crawlAndParse env bot).bot.databaseEndpoints = bot.databaseEndpoints ++ added ∧
      (∀ e ∈ added, IsBareMatch e) ∧
      (fetchedUrls (crawlAndParse env bot).probePhase = [] ∨
        fetchedUrls (crawlAndParse env bot).probePhase =
          (crawlAndParse env bot).bot.databaseEndpoints) := by
    rcases crawlAndParse_cases env bot with ⟨hb, -, hp, -⟩ | ⟨links, hb, -, hp, -⟩
    · exact ⟨[], by rw [hb, List.append_nil], fun e he => absurd he (List.not_mem_nil e),
        Or.inl (by rw [hp]; rfl)⟩
    · refine ⟨(links.enumFrom 0).flatMap (fun kl => linkEndpoints env kl.1 kl.2), ?_, ?_, ?_⟩
      · rw [hb, linkLoop_bot]
      · intro e he
        rcases List.mem_flatMap.1 he with ⟨kl, -, hkl⟩
        exact isBareMatch_of_mem_linkEndpoints env kl.1 kl.2 e hkl
      · exact Or.inr (by rw [hp, hb]; exact probeLoop_fetched env _ _ 0)
  rcases hadded with ⟨added, h1, h2, h3⟩
  refine ⟨⟨added, h1, h2⟩, ?_, by decide⟩
  intro hempty
  rw [hempty, List.nil_append] at h1
  have hall : ∀ e ∈ (crawlAndParse env bot).bot.databaseEndpoints, IsBareMatch e := by
    intro e he; rw [h1] at he; exact h2 e he
  refine ⟨hall, ?_⟩
  intro u hu
  rcases h3 with h3 | h3
  · rw [h3] at hu; exact absurd hu (List.not_mem_nil u)
  · rw [h3] at hu; exact hall u hu


/-- Claim C10 on the sample world: the bot starts with an empty list, and every stored
endpoint and every probed URL is a bare match. -/
theorem stored_endpoints_are_bare_matches_witness :
    sampleBot.databaseEndpoints = [] ∧
    (∀ e ∈ (crawlAndParse sampleEnv sampleBot).bot.databaseEndpoints, IsBareMatch e) ∧
    (∀ u ∈ fetchedUrls (crawlAndParse sampleEnv sampleBot).probePhase, IsBareMatch u) :=
  ⟨rfl, (stored_endpoints_are_bare_matches sampleEnv sampleBot).2.1 rfl⟩

end WebBot
